import Mathlib

/-!
Verification of the inventory ledger and order-generation engine of the
cocktailRecipe backend (`backend/routers/inventory.py`,
`backend/routers/orders.py`, `backend/db/inventory/*`, `backend/db/order.py`).

The embedding models the database tables as lists of rows and each router
operation as a pure function from a database state to either an error (the
HTTP exception raised, which rolls back the transaction) or the committed
new state.  UUIDs are modelled as natural numbers drawn from a counter,
SQL `Numeric` values as rationals, and the integer `change`/`quantity`
columns as integers.
-/

namespace CocktailInv

/-- Stock location: the `location` column is `'BAR' | 'WAREHOUSE'`. -/
inductive Loc
  | BAR
  | WAREHOUSE
deriving DecidableEq

/-- A row of `inventory_movements` (columns not read by any modelled
operation, such as `created_at`, are elided). -/
structure Movement where
  mid : Nat
  location : Loc
  inventory_item_id : Nat
  change : Int
  reason : Option String
  source_type : Option String
  source_id : Option Int
  source_event_id : Option Nat
  is_reversal : Bool
  is_reversed : Bool
  reversal_of_id : Option Nat
deriving DecidableEq

/-- A row of `inventory_stock`. -/
structure StockRow where
  location : Loc
  inventory_item_id : Nat
  quantity : Int
  reserved_quantity : Int
deriving DecidableEq

/-- The mutable ledger state: movement rows, stock rows, and the id source
(`uuid.uuid4()` is modelled by a counter). -/
structure DBState where
  movements : List Movement
  stocks : List StockRow
  nextId : Nat
deriving DecidableEq

/-- The empty database. -/
def initState : DBState := { movements := [], stocks := [], nextId := 0 }

/-- Look up the stock row for a `(location, inventory_item_id)` pair
(unique by the `ux_inventory_stock_location_item` constraint). -/
def findStock (stocks : List StockRow) (loc : Loc) (iid : Nat) : Option StockRow :=
  stocks.find? (fun st => st.location == loc && st.inventory_item_id == iid)

/-- Cached quantity for a pair; an absent row reads as 0 (matching the
`float(st.quantity) if st ... else 0.0` convention of the readers). -/
def stockQty (s : DBState) (loc : Loc) (iid : Nat) : Int :=
  match findStock s.stocks loc iid with
  | some st => st.quantity
  | none => 0

/-- Reserved quantity of the stock row for a pair, if the row exists. -/
def reservedQty (s : DBState) (loc : Loc) (iid : Nat) : Option Int :=
  (findStock s.stocks loc iid).map (fun st => st.reserved_quantity)

/-- Available = `int(quantity or 0) - int(reserved_quantity or 0)` with a
missing row counting as zero, as in `create_transfer` and the
`location=ALL` branch of `consume_event_from_stock`. -/
def availQty (s : DBState) (loc : Loc) (iid : Nat) : Int :=
  match findStock s.stocks loc iid with
  | some st => st.quantity - st.reserved_quantity
  | none => 0

/-- Error taxonomy of the routers (HTTP status + detail string). -/
inductive ApiError
  | notFound (detail : String)
  | conflict (detail : String)
  | badRequest (detail : String)
deriving DecidableEq

/-- Arguments of one `_upsert_stock_and_add_movement` call
(`inventory.py:92`). -/
structure MoveSpec where
  location : Loc
  inventory_item_id : Nat
  delta : Int
  reason : Option String
  source_type : Option String
  source_id : Option Int
  source_event_id : Option Nat := none
  is_reversal : Bool := false
  reversal_of_id : Option Nat := none
deriving DecidableEq

/-- The movement row inserted by `_upsert_stock_and_add_movement`
(`is_reversed` starts false, the column default). -/
def specMovement (mid : Nat) (a : MoveSpec) : Movement :=
  { mid := mid
    location := a.location
    inventory_item_id := a.inventory_item_id
    change := a.delta
    reason := a.reason
    source_type := a.source_type
    source_id := a.source_id
    source_event_id := a.source_event_id
    is_reversal := a.is_reversal
    is_reversed := false
    reversal_of_id := a.reversal_of_id }

/-- The `INSERT ... ON CONFLICT (location, inventory_item_id) DO UPDATE
SET quantity = quantity + delta` upsert: a fresh row starts at
`quantity = delta, reserved_quantity = 0`; an existing row only has the
delta added to `quantity` (`inventory.py:125`). -/
def upsertStock (stocks : List StockRow) (loc : Loc) (iid : Nat) (delta : Int) :
    List StockRow :=
  if stocks.any (fun st => st.location == loc && st.inventory_item_id == iid) then
    stocks.map (fun st =>
      if st.location == loc && st.inventory_item_id == iid then
        { st with quantity := st.quantity + delta }
      else st)
  else
    stocks ++ [{ location := loc, inventory_item_id := iid, quantity := delta,
                 reserved_quantity := 0 }]

/-- One `_upsert_stock_and_add_movement` call: append the movement row and
atomically upsert the stock row. -/
def applyOne (s : DBState) (a : MoveSpec) : DBState × Movement :=
  let mv := specMovement s.nextId a
  ({ movements := s.movements ++ [mv]
     stocks := upsertStock s.stocks a.location a.inventory_item_id a.delta
     nextId := s.nextId + 1 }, mv)

/-- A sequence of `_upsert_stock_and_add_movement` calls inside one
transaction, returning the created movement rows in order. -/
def applyList (s : DBState) : List MoveSpec → DBState × List Movement
  | [] => (s, [])
  | a :: rest =>
    let r := applyOne s a
    let rr := applyList r.1 rest
    (rr.1, r.2 :: rr.2)

/-- Python `x or default` for an optional/empty string (empty strings are
falsy). -/
def pyOrStr (v : Option String) (d : String) : String :=
  match v with
  | some x => if x == "" then d else x
  | none => d

/-- Python `int(x)` on a number: truncation toward zero
(for negative inputs this is the ceiling, written here as `-⌊-x⌋`). -/
def py_int (x : Rat) : Int :=
  if x < 0 then -⌊-x⌋ else ⌊x⌋

/-- ASCII model of Python `str.upper()` (all strings compared by the code
are ASCII literals such as `"DRAFT"`, `"USAGE"`, `"TRANSFER"`). -/
def upperStr (s : String) : String := String.mk (s.data.map Char.toUpper)

/-- ASCII model of Python `str.lower()`. -/
def lowerStr (s : String) : String := String.mk (s.data.map Char.toLower)

/-- Model of Python `str.strip()`: drop whitespace from both ends. -/
def stripStr (s : String) : String :=
  String.mk (((s.data.dropWhile Char.isWhitespace).reverse.dropWhile
    Char.isWhitespace).reverse)

/-- Observable database state after a request: the new state on success,
the rolled-back (unchanged) state when an HTTP error is raised. -/
def runState (s : DBState) (r : Except ApiError (DBState × α)) : DBState :=
  match r with
  | .ok (s', _) => s'
  | .error _ => s

/-- A row of `inventory_items` (fields the ledger operations read). -/
structure InvItem where
  id : Nat
  item_type : String
  bottle_id : Option Nat
  ingredient_id : Option Nat
deriving DecidableEq

/-- A row of `bottles` (only `volume_ml` is read by consumption). -/
structure Bottle where
  id : Nat
  volume_ml : Int
deriving DecidableEq

/-- A row of `events` (only `id` and `name` are read by the ledger). -/
structure Event where
  id : Nat
  name : String
deriving DecidableEq

/-- A row of `order_items` restricted to the columns the modelled
operations read (`used_from_stock_*`, `bottle_volume_ml`,
`recommended_bottles` and `leftover_ml` are written but never read back
by any claim-relevant path, so they are elided). -/
structure OrderItemRow where
  ingredient_id : Option Nat
  requested_ml : Option Rat
  requested_quantity : Option Rat
  requested_unit : Option String
  needed_ml : Option Rat
  needed_quantity : Option Rat
  unit : Option String
  bottle_id : Option Nat
deriving DecidableEq

/-- A row of `orders` with its items. -/
structure Order where
  oid : Nat
  scope : String
  event_id : Option Nat
  supplier_id : Option Nat
  status : String
  items : List OrderItemRow
deriving DecidableEq

/-- Catalog context read (never written) by the ledger operations. -/
structure Ctx where
  items : List InvItem
  bottles : List Bottle
  events : List Event
  orders : List Order
deriving DecidableEq

/-! ### `create_movement` (`inventory.py:632`) -/

/-- `InventoryMovementCreate` request body (`schemas/inventory.py`);
`change` is coerced with `int(payload.change)` by the router, modelled
here as already integral. -/
structure InventoryMovementCreate where
  location : Loc
  inventory_item_id : Nat
  change : Int
  reason : Option String
  source_type : Option String
  source_id : Option Int
deriving DecidableEq

/-- POST `/inventory/movements`: validates the reason policy, checks the
item exists, then writes one movement and upserts the stock row. -/
def create_movement (ctx : Ctx) (s : DBState) (p : InventoryMovementCreate) :
    Except ApiError (DBState × Movement) :=
  let delta := p.change
  let reason_upper := upperStr (stripStr (p.reason.getD ""))
  if (reason_upper == "USAGE" || reason_upper == "WASTE") && delta > 0 then
    .error (.badRequest (reason_upper ++ " movements must have a negative change"))
  else if reason_upper == "TRANSFER" then
    .error (.badRequest "Use /inventory/transfers for transfers between locations")
  else if !(ctx.items.any (fun it => it.id == p.inventory_item_id)) then
    .error (.notFound "Inventory item not found")
  else
    .ok (applyOne s
      { location := p.location
        inventory_item_id := p.inventory_item_id
        delta := delta
        reason := p.reason
        source_type := p.source_type
        source_id := p.source_id })

/-! ### `create_transfer` (`inventory.py:735`) -/

/-- `InventoryTransferCreate` request body.  The pydantic schema class is
not in the source tree (only imported); its fields follow the router's
usage and the spec signature
`transfer(item_id, quantity>0, from_location, to_location, ...)`. -/
structure InventoryTransferCreate where
  inventory_item_id : Nat
  quantity : Int
  from_location : Loc
  to_location : Loc
  reason : Option String
  source_type : Option String
  source_id : Option Int
deriving DecidableEq

/-- POST `/inventory/transfers`: validates quantity and availability at
the source, then writes the two linked movements in one transaction. -/
def create_transfer (ctx : Ctx) (s : DBState) (p : InventoryTransferCreate) :
    Except ApiError (DBState × List Movement) :=
  if p.quantity ≤ 0 then .error (.badRequest "quantity must be > 0")
  else if !(ctx.items.any (fun it => it.id == p.inventory_item_id)) then
    .error (.notFound "Inventory item not found")
  else
    match findStock s.stocks p.from_location p.inventory_item_id with
    | none => .error (.conflict "Item not found in from_location stock")
    | some stock =>
      let available := stock.quantity - stock.reserved_quantity
      if available < p.quantity then
        .error (.conflict ("Not enough quantity. Available=" ++ toString available
          ++ " requested=" ++ toString p.quantity))
      else
        let reason := pyOrStr p.reason "TRANSFER"
        let stype := pyOrStr p.source_type "transfer"
        .ok (applyList s
          [ { location := p.from_location
              inventory_item_id := p.inventory_item_id
              delta := -p.quantity
              reason := some reason
              source_type := some stype
              source_id := p.source_id },
            { location := p.to_location
              inventory_item_id := p.inventory_item_id
              delta := p.quantity
              reason := some reason
              source_type := some stype
              source_id := p.source_id } ])

/-! ### Event consumption (`inventory.py:1022`) and reversal
(`inventory.py:1279`) -/

/-- Consume-request location: `BAR`, `WAREHOUSE` or `ALL`. -/
inductive ConsumeLoc
  | bar
  | warehouse
  | all
deriving DecidableEq

/-- `ConsumeEventRequest` request body (schema class imported by the
router but absent from the source tree; fields follow the router's usage
and the spec signature `consume(event_id, location, reason?, source_id?)`). -/
structure ConsumeEventRequest where
  event_id : Nat
  location : ConsumeLoc
  reason : Option String
  source_id : Option Int
deriving DecidableEq

/-- `UnconsumeEventRequest` request body (same provenance); a missing
location behaves as `ALL`. -/
structure UnconsumeEventRequest where
  event_id : Nat
  location : Option Loc
  reason : Option String
deriving DecidableEq

/-- `_default_event_consumed_reason` (`inventory.py:68`). -/
def default_event_consumed_reason (ev : Event) : String :=
  let name := stripStr ev.name
  if name == "" then "Event consumed: " ++ toString ev.id
  else "Event consumed: " ++ name ++ " (" ++ toString ev.id ++ ")"

/-- `_default_event_unconsumed_reason` (`inventory.py:76`). -/
def default_event_unconsumed_reason (ev : Event) : String :=
  let name := stripStr ev.name
  if name == "" then "Event unconsumed: " ++ toString ev.id
  else "Event unconsumed: " ++ name ++ " (" ++ toString ev.id ++ ")"

/-- `_legacy_event_reason_candidates` (`inventory.py:83`). -/
def legacy_reason_candidates (ev : Event) : List String :=
  let name := stripStr ev.name
  if name == "" then ["Event consumed: " ++ toString ev.id]
  else ["Event consumed: " ++ name, "Event consumed: " ++ toString ev.id]

/-- A non-reversed movement tagged as a consume of this event: the
idempotency-guard predicate
(`source_event_id = eid ∧ source_type = 'event_consume' ∧ ¬is_reversed`). -/
def isActiveConsume (eid : Nat) (m : Movement) : Bool :=
  m.source_event_id == some eid && m.source_type == some "event_consume"
    && !m.is_reversed

/-- The legacy (pre-tagging) consume-movement predicate: untagged,
non-reversed, non-reversal, negative change, reason-string match. -/
def isLegacyConsume (ev : Event) (m : Movement) : Bool :=
  m.source_event_id == none
    && (m.source_type == none || m.source_type == some "event")
    && !m.is_reversed && !m.is_reversal
    && decide (m.change < 0)
    && (match m.reason with
        | some r => (legacy_reason_candidates ev).contains r
        | none => false)

/-- The EVENT-scope orders of an event (`scope == 'EVENT' ∧ event_id`). -/
def eventOrders (ctx : Ctx) (eid : Nat) : List Order :=
  ctx.orders.filter (fun o => o.scope == "EVENT" && o.event_id == some eid)

/-- The requested amount of a line, with fallback to the legacy `needed_*`
columns when both `requested_*` columns are null (`inventory.py:1099`). -/
def effective_requested (it : OrderItemRow) : Option Rat × Option Rat :=
  if it.requested_ml == none && it.requested_quantity == none then
    (it.needed_ml, it.needed_quantity)
  else (it.requested_ml, it.requested_quantity)

/-- The per-line inventory deduction of `consume_event_from_stock`
(`inventory.py:1109`): `none` when the line is skipped, otherwise the
target inventory item and its signed delta.  For a bottle-backed line the
delta is `-int(requested_ml / volume_ml)` (`Decimal` division followed by
Python `int()` truncation, which coincides with exact rational truncation
for every value representable in the `Numeric`/float columns); for a
garnish line it is `-int(requested_ml)` or `-int(requested_quantity)`. -/
def line_delta (ctx : Ctx) (it : OrderItemRow) :
    Except ApiError (Option (Nat × Int)) :=
  let rq := effective_requested it
  if rq.1 == none && rq.2 == none then .ok none
  else
    match it.bottle_id with
    | some bid =>
      match ctx.bottles.find? (fun b => b.id == bid) with
      | none => .error (.conflict ("Bottle missing or missing volume_ml for bottle_id="
          ++ toString bid))
      | some b =>
        if b.volume_ml == 0 then
          .error (.conflict ("Bottle missing or missing volume_ml for bottle_id="
            ++ toString bid))
        else
          match ctx.items.find? (fun ii =>
              ii.item_type == "BOTTLE" && ii.bottle_id == some bid) with
          | none => .error (.conflict ("No inventory BOTTLE item found for bottle_id="
              ++ toString bid))
          | some inv =>
            match rq.1 with
            | none => .error (.badRequest "Bottle-backed line missing requested_ml")
            | some r => .ok (some (inv.id, -(py_int (r / (b.volume_ml : Rat)))))
    | none =>
      match it.ingredient_id with
      | none => .ok none
      | some ing =>
        match ctx.items.find? (fun ii =>
            ii.item_type == "GARNISH" && ii.ingredient_id == some ing) with
        | none => .error (.conflict ("No inventory GARNISH item found for ingredient_id="
            ++ toString ing))
        | some inv =>
          match rq.1 with
          | some r => .ok (some (inv.id, -(py_int r)))
          | none => .ok (some (inv.id, -(py_int (rq.2.getD 0))))

/-- Insertion-ordered dict accumulation of
`deltas_by_item[id] = deltas_by_item.get(id, 0) + delta`. -/
def addDelta (acc : List (Nat × Int)) (iid : Nat) (d : Int) : List (Nat × Int) :=
  if acc.any (fun pr => pr.1 == iid) then
    acc.map (fun pr => if pr.1 == iid then (pr.1, pr.2 + d) else pr)
  else acc ++ [(iid, d)]

/-- Aggregate all order lines of the event into at most one delta per
inventory item (`inventory.py:1090`). -/
def aggregate_deltas (ctx : Ctx) (lines : List OrderItemRow) :
    Except ApiError (List (Nat × Int)) :=
  lines.foldlM (fun acc it => do
    match ← line_delta ctx it with
    | none => pure acc
    | some pr => pure (addDelta acc pr.1 pr.2)) []

/-- The movement written by event consumption for one location. -/
def consumeSpec (loc : Loc) (iid : Nat) (delta : Int) (reason : String)
    (src : Option Int) (eid : Nat) : MoveSpec :=
  { location := loc
    inventory_item_id := iid
    delta := delta
    reason := some reason
    source_type := some "event_consume"
    source_id := src
    source_event_id := some eid }

/-- The `location=ALL` branch (`inventory.py:1177`): for each aggregated
item delta, check combined availability against the stock snapshot read
before any write, then plan a WAREHOUSE debit up to `min(wh_avail, need)`
and a BAR debit of `min(bar_avail, need - take_wh)`, skipping zero takes. -/
def consumeALLSpecs (s : DBState) (eid : Nat) (reason : String)
    (src : Option Int) : List (Nat × Int) → Except ApiError (List MoveSpec)
  | [] => .ok []
  | pr :: rest =>
    if pr.2 == 0 then consumeALLSpecs s eid reason src rest
    else if pr.2 > 0 then
      .error (.badRequest "consume-event only supports negative deltas")
    else
      let need := -pr.2
      let whAvail := availQty s .WAREHOUSE pr.1
      let barAvail := availQty s .BAR pr.1
      if whAvail + barAvail < need then
        .error (.conflict ("Not enough total stock for item=" ++ toString pr.1
          ++ ". Available=" ++ toString (whAvail + barAvail)
          ++ " requested=" ++ toString need))
      else
        let takeWh := min whAvail need
        let remaining := need - takeWh
        let takeBar := min barAvail remaining
        let here := (if takeWh != 0 then
            [consumeSpec .WAREHOUSE pr.1 (-takeWh) reason src eid] else [])
          ++ (if takeBar != 0 then
            [consumeSpec .BAR pr.1 (-takeBar) reason src eid] else [])
        match consumeALLSpecs s eid reason src rest with
        | .error e => .error e
        | .ok tail => .ok (here ++ tail)

/-- The single-location branch (`inventory.py:1240`): one movement per
item with a nonzero aggregated delta, written at the requested location. -/
def consumeLocSpecs (loc : Loc) (eid : Nat) (reason : String)
    (src : Option Int) (deltas : List (Nat × Int)) : List MoveSpec :=
  (deltas.filter (fun pr => pr.2 != 0)).map
    (fun pr => consumeSpec loc pr.1 pr.2 reason src eid)

/-- POST `/inventory/consume-event` (`inventory.py:1022`). -/
def consume_event_from_stock (ctx : Ctx) (s : DBState) (p : ConsumeEventRequest) :
    Except ApiError (DBState × List Movement) :=
  if s.movements.any (isActiveConsume p.event_id) then
    .error (.conflict "Event already consumed. Unconsume it before consuming again.")
  else
    match ctx.events.find? (fun e => e.id == p.event_id) with
    | none => .error (.notFound "Event not found")
    | some ev =>
      if s.movements.any (isLegacyConsume ev) then
        .error (.conflict "Event already consumed. Unconsume it before consuming again.")
      else
        let orders := eventOrders ctx p.event_id
        if orders.isEmpty then
          .error (.conflict "No EVENT orders found for this event. Generate orders first.")
        else
          match aggregate_deltas ctx (orders.flatMap Order.items) with
          | .error e => .error e
          | .ok deltas =>
            let reason := pyOrStr p.reason (default_event_consumed_reason ev)
            match p.location with
            | .all =>
              match consumeALLSpecs s p.event_id reason p.source_id deltas with
              | .error e => .error e
              | .ok specs => .ok (applyList s specs)
            | .bar => .ok (applyList s
                (consumeLocSpecs .BAR p.event_id reason p.source_id deltas))
            | .warehouse => .ok (applyList s
                (consumeLocSpecs .WAREHOUSE p.event_id reason p.source_id deltas))

/-- The in-place normalisation and flagging applied to each movement being
reversed (`inventory.py:1330`): back-fill `source_event_id`/`source_type`
on legacy rows, then set `is_reversed`. -/
def normalizeAndMark (eid : Nat) (m : Movement) : Movement :=
  let m1 := if m.source_event_id == none then { m with source_event_id := some eid }
            else m
  let st := lowerStr (stripStr (m1.source_type.getD ""))
  let m2 := if st == "" || st == "event" then { m1 with source_type := some "event_consume" }
            else m1
  { m2 with is_reversed := true }

/-- The reversal movement written for one reversed movement
(`inventory.py:1338`): opposite sign at the same location and item,
tagged `is_reversal`, `reversal_of_id`, `source_type='event_unconsume'`. -/
def reversalSpec (eid : Nat) (reason : String) (m : Movement) : MoveSpec :=
  { location := m.location
    inventory_item_id := m.inventory_item_id
    delta := -m.change
    reason := some reason
    source_type := some "event_unconsume"
    source_id := none
    source_event_id := some eid
    is_reversal := true
    reversal_of_id := some m.mid }

/-- Movement filter of the unconsume location parameter: `BAR`/`WAREHOUSE`
restrict, anything else (modelled as `none` = `ALL`) matches all rows. -/
def locFilter (l : Option Loc) (m : Movement) : Bool :=
  match l with
  | none => true
  | some l' => m.location == l'

/-- POST `/inventory/unconsume-event` (`inventory.py:1279`). -/
def unconsume_event_from_stock (ctx : Ctx) (s : DBState) (p : UnconsumeEventRequest) :
    Except ApiError (DBState × List Movement) :=
  match ctx.events.find? (fun e => e.id == p.event_id) with
  | none => .error (.notFound "Event not found")
  | some ev =>
    let primaryP := fun m => isActiveConsume p.event_id m && locFilter p.location m
    let primary := s.movements.filter primaryP
    let reason := pyOrStr p.reason (default_event_unconsumed_reason ev)
    if primary.isEmpty then
      let legacyP := fun m => isLegacyConsume ev m && locFilter p.location m
      let legacy := s.movements.filter legacyP
      if legacy.isEmpty then
        .error (.conflict "Nothing to unconsume for this event.")
      else
        let marked := s.movements.map
          (fun m => if legacyP m then normalizeAndMark p.event_id m else m)
        let s1 : DBState := { s with movements := marked }
        .ok (applyList s1 (legacy.map (reversalSpec p.event_id reason)))
    else
      let marked := s.movements.map
        (fun m => if primaryP m then normalizeAndMark p.event_id m else m)
      let s1 : DBState := { s with movements := marked }
      .ok (applyList s1 (primary.map (reversalSpec p.event_id reason)))

/-! ### Sequences of public ledger-writing operations -/

/-- One public ledger-writing request. -/
inductive LedgerOp
  | movement (p : InventoryMovementCreate)
  | transfer (p : InventoryTransferCreate)
  | consume (p : ConsumeEventRequest)
  | unconsume (p : UnconsumeEventRequest)
deriving DecidableEq

/-- Observable state after serving one request (errors roll back). -/
def runOp (ctx : Ctx) (s : DBState) : LedgerOp → DBState
  | .movement p => runState s (create_movement ctx s p)
  | .transfer p => runState s (create_transfer ctx s p)
  | .consume p => runState s (consume_event_from_stock ctx s p)
  | .unconsume p => runState s (unconsume_event_from_stock ctx s p)

/-- Observable state after a sequence of requests. -/
def runOps (ctx : Ctx) (s : DBState) (ops : List LedgerOp) : DBState :=
  ops.foldl (runOp ctx) s

/-- Sum of `change` over the ledger movements of one `(location, item)`
pair. -/
def movementSum (s : DBState) (loc : Loc) (iid : Nat) : Int :=
  ((s.movements.filter
    (fun m => m.location == loc && m.inventory_item_id == iid)).map
      (fun m => m.change)).sum

/-! ### Weekly-by-event order generation: sequential stock depletion
(`orders.py:739`, lines 757-761; the `(ingredient, unit)`-keyed loop at
795-800 has the identical arithmetic) -/

/-- One shortfall line produced for an ingredient of one event, with the
field names of the router's line dict. -/
structure AllocLine where
  ingredient_id : Nat
  requested_ml : Rat
  used_stock_ml : Rat
  needed_ml : Rat
deriving DecidableEq

/-- `stock_ml.get(i, 0.0)`. -/
def stockGet (st : List (Nat × Rat)) (i : Nat) : Rat :=
  match st.find? (fun pr => pr.1 == i) with
  | some pr => pr.2
  | none => 0

/-- `stock_ml[i] = v` on a python dict: overwrite in place, else append. -/
def stockSet : List (Nat × Rat) → Nat → Rat → List (Nat × Rat)
  | [], i, v => [(i, v)]
  | pr :: rest, i, v =>
    if pr.1 == i then (i, v) :: rest else pr :: stockSet rest i v

/-- The per-event depletion loop (`orders.py:757`): for each requested
ingredient amount in order, `used = min(available, requested)`, debit the
shared snapshot, `shortfall = max(0, requested - used)`. -/
def alloc_event (st : List (Nat × Rat)) :
    List (Nat × Rat) → List (Nat × Rat) × List AllocLine
  | [] => (st, [])
  | pr :: rest =>
    let available := stockGet st pr.1
    let used := min available pr.2
    let st' := stockSet st pr.1 (available - used)
    let shortfall := max 0 (pr.2 - used)
    let r := alloc_event st' rest
    (r.1, ⟨pr.1, pr.2, used, shortfall⟩ :: r.2)

/-- The per-ingredient ml needs of one event in the generation window
(`_compute_event_needs` output), together with the event date used for
the ascending processing order. -/
structure EventNeeds where
  event_date : Nat
  ml_need : List (Nat × Rat)
deriving DecidableEq

/-- Fold the depletion over the window's events in list order, starting
from the stock snapshot loaded once at the top of the generation call. -/
def alloc_run (st : List (Nat × Rat)) : List EventNeeds →
    List (Nat × Rat) × List (List AllocLine)
  | [] => (st, [])
  | e :: rest =>
    let r := alloc_event st e.ml_need
    let rr := alloc_run r.1 rest
    (rr.1, r.2 :: rr.2)

/-- The snapshot as it stands when the k-th event is processed. -/
def stock_before (st : List (Nat × Rat)) : List EventNeeds → Nat → List (Nat × Rat)
  | _, 0 => st
  | [], _ + 1 => st
  | e :: rest, k + 1 => stock_before (alloc_event st e.ml_need).1 rest k

/-- Modelled from the spec: the line the claim predicts for one
ingredient given the snapshot the event sees — `used` is
`min(snapshot available, requested)` and the shortfall is
`requested - used` with no clamping. -/
def allocLineSpec (st : List (Nat × Rat)) (pr : Nat × Rat) : AllocLine :=
  { ingredient_id := pr.1
    requested_ml := pr.2
    used_stock_ml := min (stockGet st pr.1) pr.2
    needed_ml := pr.2 - min (stockGet st pr.1) pr.2 }

/-- Total snapshot debit a list of lines makes against one ingredient. -/
def usedAt (lines : List AllocLine) (i : Nat) : Rat :=
  ((lines.filter (fun l => l.ingredient_id == i)).map
    (fun l => l.used_stock_ml)).sum

/-! ### Weekly-by-event order generation: idempotent persistence
(`orders.py:824`-`orders.py:858` for EVENT orders,
`orders.py:959`-`orders.py:989` for WEEKLY orders, cleanup at
`orders.py:1040`-`orders.py:1053`, empty-window branch at
`orders.py:687`).

The `orders` list models the window-scoped `orders` table (both runs use
the same window, so orders outside it are invisible to and untouched by
both).  The computed generation content — per-event per-supplier lines
and the weekly per-supplier shortfall lines — is a function of events,
recipes and stock only, none of which generation writes, so two
back-to-back runs receive the same `GenInput`. -/

/-- `orders` table state plus the id source for new rows. -/
structure OrdersState where
  orders : List Order
  next_oid : Nat
deriving DecidableEq

/-- One event's computed per-supplier order lines
(`event_lines_by_supplier`). -/
structure EventGen where
  event_id : Nat
  groups : List (Option Nat × List OrderItemRow)
deriving DecidableEq

/-- The generation content computed before persistence: per-event groups
and the weekly per-supplier shortfall groups (`weekly_suppliers`). -/
structure GenInput where
  event_gen : List EventGen
  weekly_gen : List (Option Nat × List OrderItemRow)
deriving DecidableEq

/-- `(order.status or '').upper() == 'DRAFT'`. -/
def isDraft (o : Order) : Bool := upperStr o.status == "DRAFT"

/-- Python dict comprehension with clashing keys keeps the last row, so a
lookup in the idempotency map is `getLast?` over the matching rows. -/
def lookupLast (l : List Order) (mtch : Order → Bool) : Option Order :=
  (l.filter mtch).getLast?

/-- `existing_event_map` key predicate for `(event_id, supplier_id)`. -/
def eventKeyMatch (eid : Nat) (sid : Option Nat) (o : Order) : Bool :=
  o.scope == "EVENT" && o.event_id == some eid && o.supplier_id == sid

/-- `existing_weekly_map` key predicate for `supplier_id`. -/
def weeklyKeyMatch (sid : Option Nat) (o : Order) : Bool :=
  o.scope == "WEEKLY" && o.supplier_id == sid

/-- A fresh DRAFT EVENT order (period fields are the event date, elided
as part of the window scoping). -/
def mkEventOrder (eid : Nat) (sid : Option Nat) (oid : Nat)
    (lines : List OrderItemRow) : Order :=
  { oid := oid, scope := "EVENT", event_id := some eid, supplier_id := sid,
    status := "DRAFT", items := lines }

/-- A fresh DRAFT WEEKLY order for the window. -/
def mkWeeklyOrder (sid : Option Nat) (oid : Nat)
    (lines : List OrderItemRow) : Order :=
  { oid := oid, scope := "WEEKLY", event_id := none, supplier_id := sid,
    status := "DRAFT", items := lines }

/-- Running accumulator of one persistence phase. -/
structure PhaseAcc where
  orders : List Order
  next_oid : Nat
  created : List Nat
  updated : List Nat
  skipped : List Nat
deriving DecidableEq

/-- One `(key, lines)` upsert (`orders.py:826`): skip a non-DRAFT
existing order, replace the items of a DRAFT one in place, or create a
fresh DRAFT order.  Lookups go through the idempotency map built before
the loop, hence against `existing`, not the running `acc.orders`. -/
def upsert_order (existing : List Order) (mtch : Order → Bool)
    (mkNew : Nat → List OrderItemRow → Order) (lines : List OrderItemRow)
    (acc : PhaseAcc) : PhaseAcc :=
  match lookupLast existing mtch with
  | some o =>
    if !(isDraft o) then { acc with skipped := acc.skipped ++ [o.oid] }
    else
      { acc with
        orders := acc.orders.map (fun x =>
          if x.oid == o.oid then { x with items := lines } else x)
        updated := acc.updated ++ [o.oid] }
  | none =>
    { acc with
      orders := acc.orders ++ [mkNew acc.next_oid lines]
      next_oid := acc.next_oid + 1
      created := acc.created ++ [acc.next_oid] }

/-- The flattened `(event, supplier, lines)` iteration of the nested
event/group loops. -/
def eventTriples (g : GenInput) : List (Nat × Option Nat × List OrderItemRow) :=
  g.event_gen.flatMap (fun e => e.groups.map (fun gr => (e.event_id, gr.1, gr.2)))

/-- The `(event, supplier)` keys generation will upsert. -/
def eventKeys (g : GenInput) : List (Nat × Option Nat) :=
  g.event_gen.flatMap (fun e => e.groups.map (fun gr => (e.event_id, gr.1)))

/-- The EVENT-order persistence phase. -/
def eventPhase (existing : List Order) (g : GenInput) (acc : PhaseAcc) : PhaseAcc :=
  (eventTriples g).foldl (fun a t =>
    upsert_order existing (eventKeyMatch t.1 t.2.1) (mkEventOrder t.1 t.2.1) t.2.2 a) acc

/-- The WEEKLY-order persistence phase. -/
def weeklyPhase (existing : List Order) (g : GenInput) (acc : PhaseAcc) : PhaseAcc :=
  g.weekly_gen.foldl (fun a w =>
    upsert_order existing (weeklyKeyMatch w.1) (mkWeeklyOrder w.1) w.2 a) acc

/-- Cleanup predicate (`orders.py:1044`): a DRAFT EVENT order whose event
left the window (or has no event), or a DRAFT WEEKLY order for a supplier
with no remaining shortfall, is deleted. -/
def staleOrder (window_ids : List Nat) (weekly_sids : List (Option Nat))
    (o : Order) : Bool :=
  (o.scope == "EVENT" && isDraft o &&
    (match o.event_id with
     | none => true
     | some e => !(window_ids.contains e)))
  || (o.scope == "WEEKLY" && isDraft o && !(weekly_sids.contains o.supplier_id))

/-- Result of one generation run. -/
structure GenResult where
  orders : List Order
  next_oid : Nat
  created_event_ids : List Nat
  updated_event_ids : List Nat
  skipped_event_ids : List Nat
  created_weekly_ids : List Nat
  updated_weekly_ids : List Nat
  skipped_weekly_ids : List Nat
deriving DecidableEq

/-- The persistence portion of POST `/orders/weekly-by-event`
(`orders.py:587`): the no-event early-delete branch, the two idempotent
upsert phases against maps captured before the loops, and the stale-DRAFT
cleanup. -/
def persist_generation (st : OrdersState) (g : GenInput) : GenResult :=
  let existing_event := st.orders.filter (fun o => o.scope == "EVENT")
  let existing_weekly := st.orders.filter (fun o => o.scope == "WEEKLY")
  if g.event_gen.isEmpty then
    { orders := st.orders.filter (fun o =>
        !((o.scope == "EVENT" || o.scope == "WEEKLY") && isDraft o))
      next_oid := st.next_oid
      created_event_ids := [], updated_event_ids := [], skipped_event_ids := []
      created_weekly_ids := [], updated_weekly_ids := [], skipped_weekly_ids := [] }
  else
    let accE := eventPhase existing_event g
      { orders := st.orders, next_oid := st.next_oid,
        created := [], updated := [], skipped := [] }
    let accW := weeklyPhase existing_weekly g
      { orders := accE.orders, next_oid := accE.next_oid,
        created := [], updated := [], skipped := [] }
    let window_ids := g.event_gen.map (fun e => e.event_id)
    let weekly_sids := g.weekly_gen.map (fun w => w.1)
    { orders := accW.orders.filter (fun o => !(staleOrder window_ids weekly_sids o))
      next_oid := accW.next_oid
      created_event_ids := accE.created
      updated_event_ids := accE.updated
      skipped_event_ids := accE.skipped
      created_weekly_ids := accW.created
      updated_weekly_ids := accW.updated
      skipped_weekly_ids := accW.skipped }

/-- Well-formedness of the orders table: unique ids, all below the id
source. -/
def OrdersWF (st : OrdersState) : Prop :=
  (st.orders.map (fun o => o.oid)).Nodup ∧ ∀ o ∈ st.orders, o.oid < st.next_oid

/-- Well-formedness of a computed generation input, as produced by the
router: the `(event, supplier)` keys and the weekly supplier keys come
from dicts (hence are distinct), and the weekly aggregation is empty when
there are no events in the window. -/
def GenWF (g : GenInput) : Prop :=
  (eventKeys g).Nodup ∧ (g.weekly_gen.map (fun w => w.1)).Nodup
    ∧ (g.event_gen = [] → g.weekly_gen = [])

/-- One upsert of a persistence phase: the idempotency-map key
predicate, the constructor for a missing order, and the computed lines. -/
structure UpsTask where
  mtch : Order → Bool
  mkNew : Nat → List OrderItemRow → Order
  lines : List OrderItemRow

/-- A persistence phase, as the sequence of its upserts against the map
captured before the loop. -/
def runTasks (existing : List Order) (acc : PhaseAcc) : List UpsTask → PhaseAcc
  | [] => acc
  | t :: ts => runTasks existing (upsert_order existing t.mtch t.mkNew t.lines acc) ts

/-- The upsert one event triple performs. -/
def evTask (t : Nat × Option Nat × List OrderItemRow) : UpsTask :=
  { mtch := eventKeyMatch t.1 t.2.1, mkNew := mkEventOrder t.1 t.2.1,
    lines := t.2.2 }

/-- The upsert one weekly group performs. -/
def wkTask (w : Option Nat × List OrderItemRow) : UpsTask :=
  { mtch := weeklyKeyMatch w.1, mkNew := mkWeeklyOrder w.1, lines := w.2 }

/-- The event phase's upserts in order. -/
def eventTasks (g : GenInput) : List UpsTask := (eventTriples g).map evTask

/-- The weekly phase's upserts in order. -/
def weeklyTasks (g : GenInput) : List UpsTask := g.weekly_gen.map wkTask

/-- Bookkeeping invariant of the running accumulator: distinct order ids,
all below the id source. -/
def AccInv (acc : PhaseAcc) : Prop :=
  (acc.orders.map (fun o => o.oid)).Nodup ∧ ∀ o ∈ acc.orders, o.oid < acc.next_oid

/-- The movement rows a run of planned movements appends, with ids drawn
from the counter. -/
def specsMovements (n : Nat) : List MoveSpec → List Movement
  | [] => []
  | a :: rest => specMovement n a :: specsMovements (n + 1) rest

/-- Garnish order line requesting 7 units of ingredient 6. -/
def lineA : OrderItemRow :=
  { ingredient_id := some 6, requested_ml := none, requested_quantity := some 7,
    requested_unit := some "piece", needed_ml := none, needed_quantity := none,
    unit := none, bottle_id := none }

/-- Empty orders table for the generation idempotence scenario. -/
def stC7 : OrdersState := { orders := [], next_oid := 0 }

/-- One event with one supplier group and the matching weekly group. -/
def gC7 : GenInput :=
  { event_gen := [{ event_id := 1, groups := [(some 4, [lineA])] }]
    weekly_gen := [(some 4, [lineA])] }

/-- First generation run of the idempotence scenario. -/
def r1C7 : GenResult := persist_generation stC7 gC7

/-- Second, back-to-back generation run of the idempotence scenario. -/
def r2C7 : GenResult :=
  persist_generation { orders := r1C7.orders, next_oid := r1C7.next_oid } gC7

/-- Catalog for the `location=ALL` split scenario (event 2). -/
def ctxA : Ctx :=
  { items := [{ id := 11, item_type := "GARNISH", bottle_id := none,
                ingredient_id := some 6 }]
    bottles := []
    events := [{ id := 2, name := "" }]
    orders := [{ oid := 9, scope := "EVENT", event_id := some 2,
                 supplier_id := none, status := "DRAFT", items := [lineA] }] }

/-- ALL-location consume request for event 2. -/
def pA : ConsumeEventRequest :=
  { event_id := 2, location := .all, reason := none, source_id := none }

/-- Stock with WAREHOUSE=5 and BAR=4 of item 11 (enough for 7). -/
def sA : DBState :=
  { movements := []
    stocks := [{ location := .WAREHOUSE, inventory_item_id := 11, quantity := 5,
                 reserved_quantity := 0 },
               { location := .BAR, inventory_item_id := 11, quantity := 4,
                 reserved_quantity := 0 }]
    nextId := 0 }

/-- Stock with WAREHOUSE=3 and BAR=2 of item 11 (short of 7). -/
def sB : DBState :=
  { movements := []
    stocks := [{ location := .WAREHOUSE, inventory_item_id := 11, quantity := 3,
                 reserved_quantity := 0 },
               { location := .BAR, inventory_item_id := 11, quantity := 2,
                 reserved_quantity := 0 }]
    nextId := 0 }

/-- Stock with WAREHOUSE available 10 and BAR available -3 of item 11:
combined availability 7 passes the total check for a need of 7, but the
BAR side is negative. -/
def sC8 : DBState :=
  { movements := []
    stocks := [{ location := .WAREHOUSE, inventory_item_id := 11, quantity := 10,
                 reserved_quantity := 0 },
               { location := .BAR, inventory_item_id := 11, quantity := -3,
                 reserved_quantity := 0 }]
    nextId := 0 }

/-- The movements the `location=ALL` consume actually plans on `sC8`:
`take_wh = min(10, 7) = 7`, `remaining = 0`, and
`take_bar = min(-3, 0) = -3` — nonzero, hence written as a +3 credit. -/
def specsC8 : List MoveSpec :=
  [consumeSpec .WAREHOUSE 11 (-7) "Event consumed: 2" none 2,
   consumeSpec .BAR 11 3 "Event consumed: 2" none 2]

/-! ### Derived notions used by the claim statements -/

/-- Ledger movements of one `(location, item)` pair. -/
def keyMovements (s : DBState) (loc : Loc) (iid : Nat) : List Movement :=
  s.movements.filter (fun m => m.location == loc && m.inventory_item_id == iid)

/-- Net delta a list of planned movements applies to one pair. -/
def deltaSum (l : List MoveSpec) (loc : Loc) (iid : Nat) : Int :=
  ((l.filter (fun a => a.location == loc && a.inventory_item_id == iid)).map
    (fun a => a.delta)).sum

/-- The ledger-stock consistency invariant: every cached quantity equals
the sum of the matching movements' changes, and a pair with movements
always has a stock row (so an absent row stands for an empty sum). -/
def ledger_consistent (s : DBState) : Prop :=
  ∀ loc iid, stockQty s loc iid = movementSum s loc iid
    ∧ (keyMovements s loc iid = [] ∨ (findStock s.stocks loc iid).isSome = true)

/-- The consume idempotency guard condition: a tagged active consume
movement exists, or the event resolves and a legacy reason-string
movement exists. -/
def ConsumedGuard (ctx : Ctx) (s : DBState) (eid : Nat) : Prop :=
  s.movements.any (isActiveConsume eid) = true
    ∨ ∃ ev, ctx.events.find? (fun e => e.id == eid) = some ev
        ∧ s.movements.any (isLegacyConsume ev) = true

/-- Modelled from the spec: split a needed deduction by draining
WAREHOUSE first up to its available quantity and taking the remainder
from BAR. -/
def warehouseFirstSplit (wh need : Int) : Int × Int :=
  let fromWh := min wh need
  (fromWh, need - fromWh)

/-- Modelled from the spec: the movements a `location=ALL` consume is
expected to plan — per item, the warehouse-first split of the needed
amount, at most one debit per location, zero takes skipped. -/
def allSplitSpecs (s : DBState) (eid : Nat) (reason : String)
    (src : Option Int) (deltas : List (Nat × Int)) : List MoveSpec :=
  deltas.flatMap (fun pr =>
    if pr.2 == 0 then []
    else
      let sp := warehouseFirstSplit (availQty s .WAREHOUSE pr.1) (-pr.2)
      (if sp.1 != 0 then [consumeSpec .WAREHOUSE pr.1 (-sp.1) reason src eid] else [])
        ++ (if sp.2 != 0 then [consumeSpec .BAR pr.1 (-sp.2) reason src eid] else []))

/-! ### Concrete fixtures used to witness the theorems on sample data -/

/-- A bottle-backed EVENT order line requesting 200 ml of a 700 ml
bottle: its bottle-count delta truncates to zero. -/
def lineC3 : OrderItemRow :=
  { ingredient_id := none, requested_ml := some 200, requested_quantity := none,
    requested_unit := none, needed_ml := none, needed_quantity := none,
    unit := none, bottle_id := some 3 }

/-- Catalog for the zero-delta consume scenario. -/
def ctxC3 : Ctx :=
  { items := [{ id := 12, item_type := "BOTTLE", bottle_id := some 3,
                ingredient_id := none }]
    bottles := [{ id := 3, volume_ml := 700 }]
    events := [{ id := 7, name := "Rooftop" }]
    orders := [{ oid := 1, scope := "EVENT", event_id := some 7,
                 supplier_id := none, status := "DRAFT", items := [lineC3] }] }

/-- Consume request for the zero-delta scenario. -/
def pC3 : ConsumeEventRequest :=
  { event_id := 7, location := .bar, reason := none, source_id := none }

/-- A garnish-backed EVENT order line requesting 3 units. -/
def lineG : OrderItemRow :=
  { ingredient_id := some 5, requested_ml := none, requested_quantity := some 3,
    requested_unit := some "piece", needed_ml := none, needed_quantity := none,
    unit := none, bottle_id := none }

/-- Catalog with one garnish item and one EVENT order for event 1. -/
def ctxG : Ctx :=
  { items := [{ id := 10, item_type := "GARNISH", bottle_id := none,
                ingredient_id := some 5 }]
    bottles := []
    events := [{ id := 1, name := "" }]
    orders := [{ oid := 1, scope := "EVENT", event_id := some 1,
                 supplier_id := none, status := "DRAFT", items := [lineG] }] }

/-- Consume request against BAR for the garnish scenario. -/
def pG : ConsumeEventRequest :=
  { event_id := 1, location := .bar, reason := none, source_id := none }

/-- The movement the garnish consume writes. -/
def mvG : Movement :=
  { mid := 0, location := .BAR, inventory_item_id := 10, change := -3,
    reason := some "Event consumed: 1", source_type := some "event_consume",
    source_id := none, source_event_id := some 1, is_reversal := false,
    is_reversed := false, reversal_of_id := none }

/-- The state after the garnish consume. -/
def sG1 : DBState :=
  { movements := [mvG]
    stocks := [{ location := .BAR, inventory_item_id := 10, quantity := -3,
                 reserved_quantity := 0 }]
    nextId := 1 }

deriving instance DecidableEq for Except

/-- Catalog for the transfer scenario. -/
def ctxT : Ctx :=
  { items := [{ id := 20, item_type := "BOTTLE", bottle_id := some 4,
                ingredient_id := none }]
    bottles := [], events := [], orders := [] }

/-- Warehouse starts with 15 units of item 20. -/
def sT : DBState :=
  { movements := []
    stocks := [{ location := .WAREHOUSE, inventory_item_id := 20, quantity := 15,
                 reserved_quantity := 0 }]
    nextId := 0 }

/-- Transfer 10 units of item 20 from WAREHOUSE to BAR. -/
def pT : InventoryTransferCreate :=
  { inventory_item_id := 20, quantity := 10, from_location := .WAREHOUSE,
    to_location := .BAR, reason := none, source_type := none, source_id := none }

/-- Outgoing movement of the sample transfer. -/
def mvT1 : Movement :=
  { mid := 0, location := .WAREHOUSE, inventory_item_id := 20, change := -10,
    reason := some "TRANSFER", source_type := some "transfer", source_id := none,
    source_event_id := none, is_reversal := false, is_reversed := false,
    reversal_of_id := none }

/-- Incoming movement of the sample transfer. -/
def mvT2 : Movement :=
  { mid := 1, location := .BAR, inventory_item_id := 20, change := 10,
    reason := some "TRANSFER", source_type := some "transfer", source_id := none,
    source_event_id := none, is_reversal := false, is_reversed := false,
    reversal_of_id := none }

/-- State after the sample transfer: WAREHOUSE=5, BAR=10. -/
def sT1 : DBState :=
  { movements := [mvT1, mvT2]
    stocks := [{ location := .WAREHOUSE, inventory_item_id := 20, quantity := 5,
                 reserved_quantity := 0 },
               { location := .BAR, inventory_item_id := 20, quantity := 10,
                 reserved_quantity := 0 }]
    nextId := 2 }

/-- Stock snapshot for the depletion scenario: 3000 ml of ingredient 1
(four 750 ml gin bottles). -/
def st0C6 : List (Nat × Rat) := [(1, 3000)]

/-- Two events in ascending date order drawing on the same ingredient:
the first needs 2000 ml, the second 1125 ml. -/
def evsC6 : List EventNeeds :=
  [{ event_date := 5, ml_need := [(1, 2000)] },
   { event_date := 6, ml_need := [(1, 1125)] }]

/-! ## Ledger lemmas -/

theorem find?_map_stable {α : Type} (l : List α) (f : α → α) (p : α → Bool)
    (hp : ∀ x, p (f x) = p x) : (l.map f).find? p = (l.find? p).map f := by
  induction l with
  | nil => rfl
  | cons a t ih =>
    simp only [List.map_cons, List.find?_cons, hp a]
    cases p a
    · simpa using ih
    · rfl

theorem findStock_upsert_self (stocks : List StockRow) (loc : Loc) (iid : Nat)
    (d : Int) :
    findStock (upsertStock stocks loc iid d) loc iid
      = some (match findStock stocks loc iid with
              | some st => { st with quantity := st.quantity + d }
              | none => { location := loc, inventory_item_id := iid,
                          quantity := d, reserved_quantity := 0 }) := by
  unfold upsertStock findStock
  by_cases h : stocks.any (fun st => st.location == loc && st.inventory_item_id == iid)
  · simp only [h, if_true]
    rw [find?_map_stable]
    · cases hf : stocks.find? (fun st => st.location == loc && st.inventory_item_id == iid) with
      | none =>
        exfalso
        rcases List.any_eq_true.mp h with ⟨st, hmem, hst⟩
        exact (List.find?_eq_none.mp hf st hmem) hst
      | some st =>
        have hpst := List.find?_some hf
        simp only [Option.map_some']
        rw [if_pos hpst]
    · intro st
      by_cases hst : (st.location == loc && st.inventory_item_id == iid) = true
      · simp [hst]
      · simp [hst]
  · have hall := List.any_eq_false.mp (Bool.eq_false_iff.mpr h)
    have hnone : stocks.find? (fun st =>
        st.location == loc && st.inventory_item_id == iid) = none :=
      List.find?_eq_none.mpr hall
    simp only [h, Bool.false_eq_true, if_false]
    rw [List.find?_append, hnone]
    simp [hnone]

theorem findStock_upsert_other (stocks : List StockRow) (loc : Loc) (iid : Nat)
    (d : Int) (loc' : Loc) (iid' : Nat) (h : ¬(loc' = loc ∧ iid' = iid)) :
    findStock (upsertStock stocks loc iid d) loc' iid' = findStock stocks loc' iid' := by
  unfold upsertStock findStock
  by_cases ha : (stocks.any fun st => st.location == loc && st.inventory_item_id == iid) = true
  · simp only [ha, if_true]
    rw [find?_map_stable]
    · cases hf : stocks.find? (fun st =>
          st.location == loc' && st.inventory_item_id == iid') with
      | none => rfl
      | some st =>
        have hpst := List.find?_some hf
        simp only [Bool.and_eq_true, beq_iff_eq] at hpst
        have hne : ¬((st.location == loc && st.inventory_item_id == iid) = true) := by
          simp only [Bool.and_eq_true, beq_iff_eq, not_and]
          intro hl hi
          exact h ⟨hpst.1.symm.trans hl, hpst.2.symm.trans hi⟩
        simp only [Option.map_some']
        congr 1
        exact if_neg hne
    · intro st
      by_cases hst : (st.location == loc && st.inventory_item_id == iid) = true
      · simp [hst]
      · simp [hst]
  · simp only [ha, Bool.false_eq_true, if_false]
    rw [List.find?_append]
    have hone : List.find? (fun st => st.location == loc' && st.inventory_item_id == iid')
        [({ location := loc, inventory_item_id := iid, quantity := d,
            reserved_quantity := 0 } : StockRow)] = none := by
      apply List.find?_eq_none.mpr
      intro x hx
      rw [List.mem_singleton] at hx
      subst hx
      simp only [Bool.and_eq_true, beq_iff_eq, not_and]
      intro hl hi
      exact h ⟨hl.symm, hi.symm⟩
    rw [hone]
    cases List.find? (fun st => st.location == loc' && st.inventory_item_id == iid') stocks <;> rfl

theorem stockQty_applyOne (s : DBState) (a : MoveSpec) (loc : Loc) (iid : Nat) :
    stockQty (applyOne s a).1 loc iid
      = stockQty s loc iid
        + (if loc = a.location ∧ iid = a.inventory_item_id then a.delta else 0) := by
  unfold stockQty applyOne
  by_cases h : loc = a.location ∧ iid = a.inventory_item_id
  · obtain ⟨h1, h2⟩ := h
    subst h1
    subst h2
    rw [if_pos ⟨rfl, rfl⟩]
    show (match findStock (upsertStock s.stocks a.location a.inventory_item_id a.delta)
        a.location a.inventory_item_id with
      | some st => st.quantity | none => 0) = _
    rw [findStock_upsert_self]
    cases findStock s.stocks a.location a.inventory_item_id with
    | none => simp
    | some st => simp
  · rw [if_neg h]
    show (match findStock (upsertStock s.stocks a.location a.inventory_item_id a.delta)
        loc iid with
      | some st => st.quantity | none => 0) = _
    rw [findStock_upsert_other _ _ _ _ _ _ h]
    simp

theorem reservedQty_applyOne (s : DBState) (a : MoveSpec) (loc : Loc) (iid : Nat) :
    reservedQty (applyOne s a).1 loc iid = reservedQty s loc iid
      ∨ (reservedQty s loc iid = none
          ∧ reservedQty (applyOne s a).1 loc iid = some 0) := by
  unfold reservedQty applyOne
  by_cases h : loc = a.location ∧ iid = a.inventory_item_id
  · obtain ⟨h1, h2⟩ := h
    subst h1
    subst h2
    show Option.map _ (findStock (upsertStock s.stocks a.location a.inventory_item_id
        a.delta) a.location a.inventory_item_id) = _ ∨ _
    rw [findStock_upsert_self]
    cases hf : findStock s.stocks a.location a.inventory_item_id with
    | none => right; simp
    | some st => left; simp
  · left
    show Option.map _ (findStock (upsertStock s.stocks a.location a.inventory_item_id
        a.delta) loc iid) = _
    rw [findStock_upsert_other _ _ _ _ _ _ h]

theorem isSome_findStock_applyOne_self (s : DBState) (a : MoveSpec) :
    (findStock (applyOne s a).1.stocks a.location a.inventory_item_id).isSome = true := by
  show (findStock (upsertStock s.stocks a.location a.inventory_item_id a.delta)
      a.location a.inventory_item_id).isSome = true
  rw [findStock_upsert_self]
  rfl

theorem findStock_applyOne_other (s : DBState) (a : MoveSpec) (loc : Loc) (iid : Nat)
    (h : ¬(loc = a.location ∧ iid = a.inventory_item_id)) :
    findStock (applyOne s a).1.stocks loc iid = findStock s.stocks loc iid :=
  findStock_upsert_other _ _ _ _ _ _ h

theorem applyOne_movements (s : DBState) (a : MoveSpec) :
    (applyOne s a).1.movements = s.movements ++ [specMovement s.nextId a] := rfl

theorem applyOne_stocks (s : DBState) (a : MoveSpec) :
    (applyOne s a).1.stocks
      = upsertStock s.stocks a.location a.inventory_item_id a.delta := rfl

theorem applyOne_nextId (s : DBState) (a : MoveSpec) :
    (applyOne s a).1.nextId = s.nextId + 1 := rfl

theorem movementSum_applyOne (s : DBState) (a : MoveSpec) (loc : Loc) (iid : Nat) :
    movementSum (applyOne s a).1 loc iid
      = movementSum s loc iid
        + (if loc = a.location ∧ iid = a.inventory_item_id then a.delta else 0) := by
  unfold movementSum
  rw [applyOne_movements, List.filter_append, List.map_append, List.sum_append]
  congr 1
  by_cases h : loc = a.location ∧ iid = a.inventory_item_id
  · obtain ⟨h1, h2⟩ := h
    subst h1
    subst h2
    rw [if_pos ⟨rfl, rfl⟩]
    simp [specMovement]
  · rw [if_neg h]
    have hcond : ((specMovement s.nextId a).location == loc
        && (specMovement s.nextId a).inventory_item_id == iid) = false := by
      simp only [specMovement, Bool.and_eq_false_iff, beq_eq_false_iff_ne, ne_eq]
      by_cases hl : a.location = loc
      · right
        intro hi
        exact h ⟨hl.symm, hi.symm⟩
      · left
        exact hl
    simp [List.filter_cons, hcond]

theorem keyMovements_applyOne_other (s : DBState) (a : MoveSpec) (loc : Loc) (iid : Nat)
    (h : ¬(loc = a.location ∧ iid = a.inventory_item_id)) :
    keyMovements (applyOne s a).1 loc iid = keyMovements s loc iid := by
  unfold keyMovements
  rw [applyOne_movements, List.filter_append]
  have hcond : ((specMovement s.nextId a).location == loc
      && (specMovement s.nextId a).inventory_item_id == iid) = false := by
    simp only [specMovement, Bool.and_eq_false_iff, beq_eq_false_iff_ne, ne_eq]
    by_cases hl : a.location = loc
    · right
      intro hi
      exact h ⟨hl.symm, hi.symm⟩
    · left
      exact hl
  simp [List.filter_cons, hcond]

theorem applyList_fst_movements (s : DBState) (l : List MoveSpec) :
    (applyList s l).1.movements = s.movements ++ (applyList s l).2 := by
  induction l generalizing s with
  | nil => simp [applyList]
  | cons a t ih =>
    show (applyList (applyOne s a).1 t).1.movements
        = s.movements ++ ((applyOne s a).2 :: (applyList (applyOne s a).1 t).2)
    rw [ih, applyOne_movements]
    simp
    rfl

theorem applyList_snd (s : DBState) (l : List MoveSpec) :
    (applyList s l).2 = specsMovements s.nextId l := by
  induction l generalizing s with
  | nil => rfl
  | cons a t ih =>
    show (applyOne s a).2 :: (applyList (applyOne s a).1 t).2
        = specMovement s.nextId a :: specsMovements (s.nextId + 1) t
    rw [ih, applyOne_nextId]
    rfl

theorem deltaSum_nil (loc : Loc) (iid : Nat) : deltaSum [] loc iid = 0 := rfl

theorem deltaSum_cons (a : MoveSpec) (t : List MoveSpec) (loc : Loc) (iid : Nat) :
    deltaSum (a :: t) loc iid
      = (if loc = a.location ∧ iid = a.inventory_item_id then a.delta else 0)
        + deltaSum t loc iid := by
  unfold deltaSum
  rw [List.filter_cons]
  by_cases h : loc = a.location ∧ iid = a.inventory_item_id
  · obtain ⟨h1, h2⟩ := h
    subst h1
    subst h2
    simp
  · rw [if_neg h]
    have hcond : (a.location == loc && a.inventory_item_id == iid) = false := by
      simp only [Bool.and_eq_false_iff, beq_eq_false_iff_ne, ne_eq]
      by_cases hl : a.location = loc
      · right
        intro hi
        exact h ⟨hl.symm, hi.symm⟩
      · left
        exact hl
    simp [hcond]

theorem stockQty_applyList (s : DBState) (l : List MoveSpec) (loc : Loc) (iid : Nat) :
    stockQty (applyList s l).1 loc iid = stockQty s loc iid + deltaSum l loc iid := by
  induction l generalizing s with
  | nil => simp [applyList, deltaSum_nil]
  | cons a t ih =>
    show stockQty (applyList (applyOne s a).1 t).1 loc iid = _
    rw [ih, stockQty_applyOne, deltaSum_cons]
    ring

theorem movementSum_applyList (s : DBState) (l : List MoveSpec) (loc : Loc) (iid : Nat) :
    movementSum (applyList s l).1 loc iid
      = movementSum s loc iid + deltaSum l loc iid := by
  induction l generalizing s with
  | nil => simp [applyList, deltaSum_nil]
  | cons a t ih =>
    show movementSum (applyList (applyOne s a).1 t).1 loc iid = _
    rw [ih, movementSum_applyOne, deltaSum_cons]
    ring

theorem reservedQty_applyList (s : DBState) (l : List MoveSpec) (loc : Loc) (iid : Nat) :
    reservedQty (applyList s l).1 loc iid = reservedQty s loc iid
      ∨ (reservedQty s loc iid = none
          ∧ reservedQty (applyList s l).1 loc iid = some 0) := by
  induction l generalizing s with
  | nil => left; rfl
  | cons a t ih =>
    have hstep := reservedQty_applyOne s a loc iid
    have hrest := ih (applyOne s a).1
    show reservedQty (applyList (applyOne s a).1 t).1 loc iid = _ ∨ _
    rcases hrest with h2 | ⟨h2a, h2b⟩
    · rcases hstep with h1 | ⟨h1a, h1b⟩
      · left
        rw [h2, h1]
      · right
        exact ⟨h1a, h2.trans h1b⟩
    · rcases hstep with h1 | ⟨h1a, h1b⟩
      · right
        exact ⟨h1.symm.trans h2a, h2b⟩
      · rw [h1b] at h2a
        cases h2a

/-! ## C4, C5: transfers -/

/-- C4: a successful transfer of quantity q between the two locations
conserves the item's combined stock: the source decreases by exactly q,
the destination increases by exactly q, and their sum is unchanged. -/
theorem claim_C4_transfer_conservation (ctx : Ctx) (s : DBState)
    (p : InventoryTransferCreate) (s' : DBState) (mvs : List Movement)
    (h : create_transfer ctx s p = .ok (s', mvs))
    (hne : p.from_location ≠ p.to_location) :
    stockQty s' p.from_location p.inventory_item_id
        = stockQty s p.from_location p.inventory_item_id - p.quantity
    ∧ stockQty s' p.to_location p.inventory_item_id
        = stockQty s p.to_location p.inventory_item_id + p.quantity
    ∧ stockQty s' p.from_location p.inventory_item_id
        + stockQty s' p.to_location p.inventory_item_id
      = stockQty s p.from_location p.inventory_item_id
        + stockQty s p.to_location p.inventory_item_id := by
  unfold create_transfer at h
  by_cases h1 : p.quantity ≤ 0
  · rw [if_pos h1] at h
    exact Except.noConfusion h
  · rw [if_neg h1] at h
    by_cases h2 : (!ctx.items.any fun it => it.id == p.inventory_item_id) = true
    · rw [if_pos h2] at h
      exact Except.noConfusion h
    · rw [if_neg h2] at h
      cases hf : findStock s.stocks p.from_location p.inventory_item_id with
      | none =>
        rw [hf] at h
        exact Except.noConfusion h
      | some stock =>
        rw [hf] at h
        dsimp only at h
        by_cases h3 : stock.quantity - stock.reserved_quantity < p.quantity
        · rw [if_pos h3] at h
          exact Except.noConfusion h
        · rw [if_neg h3] at h
          have hs' : s' = (applyList s
              [ { location := p.from_location
                  inventory_item_id := p.inventory_item_id
                  delta := -p.quantity
                  reason := some (pyOrStr p.reason "TRANSFER")
                  source_type := some (pyOrStr p.source_type "transfer")
                  source_id := p.source_id },
                { location := p.to_location
                  inventory_item_id := p.inventory_item_id
                  delta := p.quantity
                  reason := some (pyOrStr p.reason "TRANSFER")
                  source_type := some (pyOrStr p.source_type "transfer")
                  source_id := p.source_id } ]).1 := by
            have := congrArg (fun r => match r with
              | Except.ok (pr : DBState × List Movement) => pr.1
              | Except.error _ => s) h
            simpa using this.symm
          have hfrom := stockQty_applyList s
            [ { location := p.from_location
                inventory_item_id := p.inventory_item_id
                delta := -p.quantity
                reason := some (pyOrStr p.reason "TRANSFER")
                source_type := some (pyOrStr p.source_type "transfer")
                source_id := p.source_id },
              { location := p.to_location
                inventory_item_id := p.inventory_item_id
                delta := p.quantity
                reason := some (pyOrStr p.reason "TRANSFER")
                source_type := some (pyOrStr p.source_type "transfer")
                source_id := p.source_id } ] p.from_location p.inventory_item_id
          have hto := stockQty_applyList s
            [ { location := p.from_location
                inventory_item_id := p.inventory_item_id
                delta := -p.quantity
                reason := some (pyOrStr p.reason "TRANSFER")
                source_type := some (pyOrStr p.source_type "transfer")
                source_id := p.source_id },
              { location := p.to_location
                inventory_item_id := p.inventory_item_id
                delta := p.quantity
                reason := some (pyOrStr p.reason "TRANSFER")
                source_type := some (pyOrStr p.source_type "transfer")
                source_id := p.source_id } ] p.to_location p.inventory_item_id
          rw [deltaSum_cons, deltaSum_cons, deltaSum_nil] at hfrom hto
          rw [if_pos ⟨rfl, rfl⟩, if_neg (fun hc => hne hc.1)] at hfrom
          rw [if_neg (fun hc => hne hc.1.symm), if_pos ⟨rfl, rfl⟩] at hto
          rw [hs']
          refine ⟨by rw [hfrom]; ring, by rw [hto]; ring, by rw [hfrom, hto]; ring⟩

/-- C5: a transfer request (positive quantity, existing item) with no
stock row at the source, or with available < requested at the source,
fails with a Conflict error and leaves stock and ledger unchanged.
The request schema is absent from the source tree; following the spec
signature `transfer(item_id, quantity>0, ...)`, validated requests carry
a positive quantity, and the claim presumes the item exists (otherwise
the earlier NotFound guard fires). -/
theorem claim_C5_transfer_insufficient (ctx : Ctx) (s : DBState)
    (p : InventoryTransferCreate)
    (hq : 1 ≤ p.quantity)
    (hitem : ctx.items.any (fun it => it.id == p.inventory_item_id) = true)
    (h : findStock s.stocks p.from_location p.inventory_item_id = none
       ∨ ∃ st, findStock s.stocks p.from_location p.inventory_item_id = some st
           ∧ st.quantity - st.reserved_quantity < p.quantity) :
    (∃ d, create_transfer ctx s p = .error (.conflict d))
    ∧ runState s (create_transfer ctx s p) = s := by
  have hq0 : ¬(p.quantity ≤ 0) := by omega
  have hit : ¬((!ctx.items.any fun it => it.id == p.inventory_item_id) = true) := by
    simp [hitem]
  have herr : ∃ d, create_transfer ctx s p = .error (.conflict d) := by
    unfold create_transfer
    rw [if_neg hq0, if_neg hit]
    rcases h with hnone | ⟨st, hsome, hlt⟩
    · rw [hnone]
      exact ⟨_, rfl⟩
    · rw [hsome]
      dsimp only
      rw [if_pos hlt]
      exact ⟨_, rfl⟩
  refine ⟨herr, ?_⟩
  rcases herr with ⟨d, hd⟩
  rw [hd]
  rfl

/-! ## C10: reserved_quantity frame property -/

theorem runState_ok {α : Type} (s : DBState) (pr : DBState × α) :
    runState s (.ok pr) = pr.1 := rfl

theorem runState_error {α : Type} (s : DBState) (e : ApiError) :
    runState s (Except.error e : Except ApiError (DBState × α)) = s := rfl

/-- C10: every public ledger-writing operation leaves `reserved_quantity`
unchanged on every existing stock row, and a stock row created lazily by
a first movement starts with `reserved_quantity = 0`. -/
theorem claim_C10_reserved_frame (ctx : Ctx) (s : DBState) (op : LedgerOp)
    (loc : Loc) (iid : Nat) :
    reservedQty (runOp ctx s op) loc iid = reservedQty s loc iid
      ∨ (reservedQty s loc iid = none
          ∧ reservedQty (runOp ctx s op) loc iid = some 0) := by
  cases op with
  | movement p =>
    rw [show runOp ctx s (LedgerOp.movement p)
        = runState s (create_movement ctx s p) from rfl]
    unfold create_movement
    dsimp only
    repeat' split
    all_goals first
      | (left; rfl)
      | (rw [runState_ok]; exact reservedQty_applyOne s _ loc iid)
  | transfer p =>
    rw [show runOp ctx s (LedgerOp.transfer p)
        = runState s (create_transfer ctx s p) from rfl]
    unfold create_transfer
    dsimp only
    repeat' split
    all_goals first
      | (left; rfl)
      | (rw [runState_ok]; exact reservedQty_applyList s _ loc iid)
  | consume p =>
    rw [show runOp ctx s (LedgerOp.consume p)
        = runState s (consume_event_from_stock ctx s p) from rfl]
    unfold consume_event_from_stock
    dsimp only
    repeat' split
    all_goals first
      | (left; rfl)
      | (rw [runState_ok]; exact reservedQty_applyList s _ loc iid)
  | unconsume p =>
    rw [show runOp ctx s (LedgerOp.unconsume p)
        = runState s (unconsume_event_from_stock ctx s p) from rfl]
    unfold unconsume_event_from_stock
    dsimp only
    repeat' split
    all_goals first
      | (left; rfl)
      | (rw [runState_ok]; exact reservedQty_applyList _ _ loc iid)

/-! ## C1: ledger-stock consistency -/

theorem filter_map_stable {α : Type} (l : List α) (f : α → α) (p : α → Bool)
    (hp : ∀ x, p (f x) = p x) : (l.map f).filter p = (l.filter p).map f := by
  induction l with
  | nil => rfl
  | cons a t ih =>
    simp only [List.map_cons, List.filter_cons, hp a]
    cases p a <;> simp [ih]

theorem ledger_consistent_applyOne (s : DBState) (a : MoveSpec)
    (h : ledger_consistent s) : ledger_consistent (applyOne s a).1 := by
  intro loc iid
  obtain ⟨hsum, hrow⟩ := h loc iid
  constructor
  · rw [stockQty_applyOne, movementSum_applyOne, hsum]
  · by_cases hk : loc = a.location ∧ iid = a.inventory_item_id
    · right
      obtain ⟨h1, h2⟩ := hk
      subst h1
      subst h2
      exact isSome_findStock_applyOne_self s a
    · rw [keyMovements_applyOne_other s a loc iid hk,
        findStock_applyOne_other s a loc iid hk]
      exact hrow

theorem ledger_consistent_applyList (s : DBState) (l : List MoveSpec)
    (h : ledger_consistent s) : ledger_consistent (applyList s l).1 := by
  induction l generalizing s with
  | nil => exact h
  | cons a t ih =>
    show ledger_consistent (applyList (applyOne s a).1 t).1
    exact ih _ (ledger_consistent_applyOne s a h)

theorem normalizeAndMark_location (eid : Nat) (m : Movement) :
    (normalizeAndMark eid m).location = m.location := by
  unfold normalizeAndMark
  dsimp only
  repeat' split
  all_goals rfl

theorem normalizeAndMark_item (eid : Nat) (m : Movement) :
    (normalizeAndMark eid m).inventory_item_id = m.inventory_item_id := by
  unfold normalizeAndMark
  dsimp only
  repeat' split
  all_goals rfl

theorem normalizeAndMark_change (eid : Nat) (m : Movement) :
    (normalizeAndMark eid m).change = m.change := by
  unfold normalizeAndMark
  dsimp only
  repeat' split
  all_goals rfl

theorem ledger_consistent_mark (s : DBState) (P : Movement → Bool) (eid : Nat)
    (h : ledger_consistent s) :
    ledger_consistent { s with movements := s.movements.map (fun m => if P m then normalizeAndMark eid m else m) } := by
  intro loc iid
  obtain ⟨hsum, hrow⟩ := h loc iid
  have hfstable : ∀ m : Movement,
      (((if P m then normalizeAndMark eid m else m).location == loc)
        && ((if P m then normalizeAndMark eid m else m).inventory_item_id == iid))
      = ((m.location == loc) && (m.inventory_item_id == iid)) := by
    intro m
    by_cases hp : P m = true
    · rw [if_pos hp, normalizeAndMark_location, normalizeAndMark_item]
    · rw [if_neg hp]
  have hfilter : keyMovements { s with movements := s.movements.map (fun m => if P m then normalizeAndMark eid m else m) } loc iid
      = (keyMovements s loc iid).map
        (fun m => if P m then normalizeAndMark eid m else m) := by
    unfold keyMovements
    exact filter_map_stable _ _ _ hfstable
  constructor
  · show stockQty s loc iid = _
    rw [hsum]
    unfold movementSum
    dsimp only
    rw [filter_map_stable _ _ _ hfstable, List.map_map]
    congr 1
    apply List.map_congr_left
    intro m _
    by_cases hp : P m = true
    · simp only [Function.comp_apply, if_pos hp, normalizeAndMark_change]
    · simp only [Function.comp_apply, if_neg hp]
  · rw [hfilter]
    rcases hrow with hempty | hsome
    · left
      rw [hempty]
      rfl
    · right
      exact hsome

theorem ledger_consistent_runOp (ctx : Ctx) (s : DBState) (op : LedgerOp)
    (h : ledger_consistent s) : ledger_consistent (runOp ctx s op) := by
  cases op with
  | movement p =>
    rw [show runOp ctx s (LedgerOp.movement p)
        = runState s (create_movement ctx s p) from rfl]
    unfold create_movement
    dsimp only
    repeat' split
    all_goals first
      | exact h
      | (rw [runState_ok]; exact ledger_consistent_applyOne s _ h)
  | transfer p =>
    rw [show runOp ctx s (LedgerOp.transfer p)
        = runState s (create_transfer ctx s p) from rfl]
    unfold create_transfer
    dsimp only
    repeat' split
    all_goals first
      | exact h
      | (rw [runState_ok]; exact ledger_consistent_applyList s _ h)
  | consume p =>
    rw [show runOp ctx s (LedgerOp.consume p)
        = runState s (consume_event_from_stock ctx s p) from rfl]
    unfold consume_event_from_stock
    dsimp only
    repeat' split
    all_goals first
      | exact h
      | (rw [runState_ok]; exact ledger_consistent_applyList s _ h)
  | unconsume p =>
    rw [show runOp ctx s (LedgerOp.unconsume p)
        = runState s (unconsume_event_from_stock ctx s p) from rfl]
    unfold unconsume_event_from_stock
    dsimp only
    repeat' split
    all_goals first
      | exact h
      | (rw [runState_ok];
         exact ledger_consistent_applyList _ _ (ledger_consistent_mark s _ _ h))

theorem ledger_consistent_init : ledger_consistent initState := by
  intro loc iid
  exact ⟨rfl, Or.inl rfl⟩

theorem ledger_consistent_runOps (ctx : Ctx) (s : DBState) (ops : List LedgerOp)
    (h : ledger_consistent s) : ledger_consistent (runOps ctx s ops) := by
  induction ops generalizing s with
  | nil => exact h
  | cons op t ih =>
    show ledger_consistent (runOps ctx (runOp ctx s op) t)
    exact ih _ (ledger_consistent_runOp ctx s op h)

/-- C1: after any sequence of the public ledger-writing operations from
the empty database, the cached `InventoryStock.quantity` of every
`(item, location)` pair equals the sum of `InventoryMovement.change` over
the ledger movements recorded for that pair, and a pair with an absent
stock row has no movements at all (its sum is the empty sum, zero). -/
theorem claim_C1_ledger_stock_consistency (ctx : Ctx) (ops : List LedgerOp)
    (loc : Loc) (iid : Nat) :
    stockQty (runOps ctx initState ops) loc iid
        = movementSum (runOps ctx initState ops) loc iid
    ∧ (keyMovements (runOps ctx initState ops) loc iid = []
        ∨ (findStock (runOps ctx initState ops).stocks loc iid).isSome = true) :=
  ledger_consistent_runOps ctx initState ops ledger_consistent_init loc iid

/-! ## C9: per-line consumption deltas -/

/-- C9: a bottle-backed order line with effective requested milliliters r
and bottle volume v > 0 is deducted as `-int(r / v)` bottles (truncation
toward zero, so a partial bottle is never deducted); a garnish-backed
line is deducted directly at ledger granularity, from `requested_ml` when
present and from `requested_quantity` otherwise. -/
theorem claim_C9_line_deltas (ctx : Ctx) (it : OrderItemRow) :
    (∀ bid b inv r,
       it.bottle_id = some bid →
       ctx.bottles.find? (fun x => x.id == bid) = some b →
       0 < b.volume_ml →
       ctx.items.find? (fun x =>
         x.item_type == "BOTTLE" && x.bottle_id == some bid) = some inv →
       (effective_requested it).1 = some r →
       line_delta ctx it = .ok (some (inv.id, -(py_int (r / (b.volume_ml : Rat))))))
    ∧ (∀ ing inv,
       it.bottle_id = none →
       it.ingredient_id = some ing →
       ctx.items.find? (fun x =>
         x.item_type == "GARNISH" && x.ingredient_id == some ing) = some inv →
       (∀ r, (effective_requested it).1 = some r →
          line_delta ctx it = .ok (some (inv.id, -(py_int r))))
       ∧ (∀ q, (effective_requested it).1 = none →
          (effective_requested it).2 = some q →
          line_delta ctx it = .ok (some (inv.id, -(py_int q))))) := by
  constructor
  · intro bid b inv r hbid hb hv hinv hr
    have hguard : (((effective_requested it).1 == none)
        && ((effective_requested it).2 == none)) = false := by
      rw [hr]
      rfl
    have hvol : (b.volume_ml == 0) = false := by
      rw [beq_eq_false_iff_ne]
      omega
    unfold line_delta
    try dsimp only
    rw [hguard]
    simp only [Bool.false_eq_true, if_false]
    rw [hbid]
    try dsimp only
    rw [hb]
    try dsimp only
    rw [hvol]
    simp only [Bool.false_eq_true, if_false]
    rw [hinv]
    try dsimp only
    rw [hr]
  · intro ing inv hbid hing hinv
    constructor
    · intro r hr
      have hguard : (((effective_requested it).1 == none)
          && ((effective_requested it).2 == none)) = false := by
        rw [hr]
        rfl
      unfold line_delta
      try dsimp only
      rw [hguard]
      simp only [Bool.false_eq_true, if_false]
      rw [hbid]
      try dsimp only
      rw [hing]
      try dsimp only
      rw [hinv]
      try dsimp only
      rw [hr]
    · intro q hr1 hr2
      have hguard : (((effective_requested it).1 == none)
          && ((effective_requested it).2 == none)) = false := by
        rw [hr1, hr2]
        rfl
      unfold line_delta
      try dsimp only
      rw [hguard]
      simp only [Bool.false_eq_true, if_false]
      rw [hbid]
      try dsimp only
      rw [hing]
      try dsimp only
      rw [hinv]
      try dsimp only
      rw [hr1, hr2]
      rfl

/-! ## Consume inversion lemmas (used by C2, C3, C8) -/

theorem consumeALLSpecs_mem (s : DBState) (eid : Nat) (reason : String)
    (src : Option Int) (deltas : List (Nat × Int)) (specs : List MoveSpec)
    (h : consumeALLSpecs s eid reason src deltas = .ok specs) :
    ∀ a ∈ specs, a.source_event_id = some eid
      ∧ a.source_type = some "event_consume" ∧ a.is_reversal = false := by
  induction deltas generalizing specs with
  | nil =>
    cases h
    intro a ha
    cases ha
  | cons pr rest ih =>
    unfold consumeALLSpecs at h
    split at h
    · exact ih specs h
    · split at h
      · exact Except.noConfusion h
      · dsimp only at h
        split at h
        · exact Except.noConfusion h
        · split at h
          · exact Except.noConfusion h
          · rename_i tail htail
            cases h
            intro a ha
            rw [List.mem_append] at ha
            rcases ha with ha | ha
            · rw [List.mem_append] at ha
              rcases ha with ha | ha
              · split at ha
                · rw [List.mem_singleton] at ha
                  subst ha
                  exact ⟨rfl, rfl, rfl⟩
                · cases ha
              · split at ha
                · rw [List.mem_singleton] at ha
                  subst ha
                  exact ⟨rfl, rfl, rfl⟩
                · cases ha
            · exact ih tail htail a ha

theorem consumeLocSpecs_mem (loc : Loc) (eid : Nat) (reason : String)
    (src : Option Int) (deltas : List (Nat × Int)) :
    ∀ a ∈ consumeLocSpecs loc eid reason src deltas,
      a.source_event_id = some eid
      ∧ a.source_type = some "event_consume" ∧ a.is_reversal = false := by
  intro a ha
  unfold consumeLocSpecs at ha
  rw [List.mem_map] at ha
  rcases ha with ⟨pr, _, hpr⟩
  subst hpr
  exact ⟨rfl, rfl, rfl⟩

theorem specsMovements_mem (n : Nat) (l : List MoveSpec) (mv : Movement)
    (h : mv ∈ specsMovements n l) :
    ∃ n' a, a ∈ l ∧ mv = specMovement n' a := by
  induction l generalizing n with
  | nil => cases h
  | cons a t ih =>
    rcases List.mem_cons.mp h with heq | hmem
    · exact ⟨n, a, List.mem_cons_self a t, heq⟩
    · rcases ih (n + 1) hmem with ⟨n', a', ha', heq'⟩
      exact ⟨n', a', List.mem_cons_of_mem a ha', heq'⟩

/-- Inversion of a successful consume: the guards passed and the new
state is the atomic application of a plan of movements, all tagged as
active consume movements of the event. -/
theorem consume_ok_inversion (ctx : Ctx) (s : DBState) (p : ConsumeEventRequest)
    (s1 : DBState) (written : List Movement)
    (h : consume_event_from_stock ctx s p = .ok (s1, written)) :
    s.movements.any (isActiveConsume p.event_id) = false
    ∧ ∃ ev, ctx.events.find? (fun e => e.id == p.event_id) = some ev
      ∧ s.movements.any (isLegacyConsume ev) = false
      ∧ ∃ specs, s1 = (applyList s specs).1 ∧ written = (applyList s specs).2
        ∧ ∀ a ∈ specs, a.source_event_id = some p.event_id
            ∧ a.source_type = some "event_consume" ∧ a.is_reversal = false := by
  unfold consume_event_from_stock at h
  by_cases hany : s.movements.any (isActiveConsume p.event_id) = true
  · rw [if_pos hany] at h
    exact Except.noConfusion h
  · rw [if_neg hany] at h
    refine ⟨Bool.eq_false_iff.mpr hany, ?_⟩
    cases hev : ctx.events.find? (fun e => e.id == p.event_id) with
    | none =>
      rw [hev] at h
      exact Except.noConfusion h
    | some ev =>
      rw [hev] at h
      dsimp only at h
      refine ⟨ev, rfl, ?_⟩
      by_cases hleg : s.movements.any (isLegacyConsume ev) = true
      · rw [if_pos hleg] at h
        exact Except.noConfusion h
      · rw [if_neg hleg] at h
        refine ⟨Bool.eq_false_iff.mpr hleg, ?_⟩
        by_cases hord : (eventOrders ctx p.event_id).isEmpty = true
        · rw [if_pos hord] at h
          exact Except.noConfusion h
        · rw [if_neg hord] at h
          cases hagg : aggregate_deltas ctx ((eventOrders ctx p.event_id).flatMap Order.items) with
          | error e =>
            rw [hagg] at h
            exact Except.noConfusion h
          | ok deltas =>
            rw [hagg] at h
            dsimp only at h
            cases hploc : p.location with
            | all =>
              rw [hploc] at h
              dsimp only at h
              cases hspecs : consumeALLSpecs s p.event_id
                  (pyOrStr p.reason (default_event_consumed_reason ev)) p.source_id deltas with
              | error e =>
                rw [hspecs] at h
                exact Except.noConfusion h
              | ok specs =>
                rw [hspecs] at h
                dsimp only at h
                injection h with h2
                exact ⟨specs, (congrArg Prod.fst h2).symm, (congrArg Prod.snd h2).symm,
                  consumeALLSpecs_mem s p.event_id _ p.source_id deltas specs hspecs⟩
            | bar =>
              rw [hploc] at h
              dsimp only at h
              injection h with h2
              exact ⟨_, (congrArg Prod.fst h2).symm, (congrArg Prod.snd h2).symm,
                consumeLocSpecs_mem _ _ _ _ _⟩
            | warehouse =>
              rw [hploc] at h
              dsimp only at h
              injection h with h2
              exact ⟨_, (congrArg Prod.fst h2).symm, (congrArg Prod.snd h2).symm,
                consumeLocSpecs_mem _ _ _ _ _⟩

theorem consume_ok_marks_event (ctx : Ctx) (s : DBState) (p : ConsumeEventRequest)
    (s1 : DBState) (written : List Movement)
    (h : consume_event_from_stock ctx s p = .ok (s1, written)) (hw : written ≠ []) :
    s1.movements.any (isActiveConsume p.event_id) = true := by
  obtain ⟨hany, ev, hev, hleg, specs, hs1, hwr, hall⟩ :=
    consume_ok_inversion ctx s p s1 written h
  subst hs1
  rcases List.exists_mem_of_ne_nil _ hw with ⟨mv, hmv⟩
  rw [hwr] at hmv
  rw [applyList_snd] at hmv
  rcases specsMovements_mem _ _ _ hmv with ⟨n', a, ha, hmv_eq⟩
  obtain ⟨h1, h2, _⟩ := hall a ha
  apply List.any_eq_true.mpr
  refine ⟨mv, ?_, ?_⟩
  · rw [applyList_fst_movements, List.mem_append]
    right
    rw [applyList_snd]
    exact hmv
  · subst hmv_eq
    simp [isActiveConsume, specMovement, h1, h2]

/-! ## C3: consume idempotency guard (corrected) -/

/-- C3 counterexample to the claim as stated: for an event whose only
order line requests 200 ml of a 700 ml bottle, the per-line delta
truncates to zero, so a consume succeeds writing no movements and leaves
the state unchanged — and an immediate second consume (no intervening
unconsume) succeeds again instead of failing with Conflict. -/
theorem claim_C3_counterexample :
    consume_event_from_stock ctxC3 initState pC3 = .ok (initState, [])
    ∧ consume_event_from_stock ctxC3
        (runState initState (consume_event_from_stock ctxC3 initState pC3)) pC3
      = .ok (initState, []) := by
  have hpy : py_int ((200 : Rat) / 700) = 0 := by
    rw [py_int]
    norm_num
  have hld : line_delta ctxC3 lineC3 = .ok (some (12, 0)) := by
    have hguard : (((effective_requested lineC3).1 == none)
        && ((effective_requested lineC3).2 == none)) = false := by decide
    unfold line_delta
    try dsimp only
    rw [hguard]
    simp only [Bool.false_eq_true, if_false]
    rw [show lineC3.bottle_id = some 3 from rfl]
    try dsimp only
    rw [show ctxC3.bottles.find? (fun b => b.id == 3)
        = some { id := 3, volume_ml := 700 } from rfl]
    try dsimp only
    rw [show ((700 : Int) == 0) = false from rfl]
    simp only [Bool.false_eq_true, if_false]
    rw [show ctxC3.items.find? (fun ii => ii.item_type == "BOTTLE"
        && ii.bottle_id == some 3)
        = some { id := 12, item_type := "BOTTLE", bottle_id := some 3,
                 ingredient_id := none } from rfl]
    try dsimp only
    rw [show (effective_requested lineC3).1 = some 200 from rfl]
    try dsimp only
    rw [show ((700 : Int) : Rat) = 700 from rfl, hpy]
    norm_num
  have hagg : aggregate_deltas ctxC3
      ((eventOrders ctxC3 pC3.event_id).flatMap Order.items) = .ok [(12, 0)] := by
    rw [show (eventOrders ctxC3 pC3.event_id).flatMap Order.items = [lineC3] from rfl]
    unfold aggregate_deltas
    rw [List.foldlM_cons, hld]
    rfl
  have hone : consume_event_from_stock ctxC3 initState pC3 = .ok (initState, []) := by
    unfold consume_event_from_stock
    rw [show (initState.movements.any (isActiveConsume pC3.event_id)) = false from rfl]
    simp only [Bool.false_eq_true, if_false]
    rw [show ctxC3.events.find? (fun e => e.id == pC3.event_id)
        = some { id := 7, name := "Rooftop" } from rfl]
    try dsimp only
    rw [show (initState.movements.any (isLegacyConsume { id := 7, name := "Rooftop" }))
        = false from rfl]
    simp only [Bool.false_eq_true, if_false]
    rw [show ((eventOrders ctxC3 pC3.event_id).isEmpty) = false from rfl]
    simp only [Bool.false_eq_true, if_false]
    rw [hagg]
    try dsimp only
    rw [show pC3.location = ConsumeLoc.bar from rfl]
    try dsimp only
    rfl
  refine ⟨hone, ?_⟩
  rw [hone]
  exact hone

/-- C3 (amended): an event with at least one non-reversed tagged
`event_consume` movement (or a matching legacy reason-string movement,
when the event resolves) makes a consume call fail with Conflict, writing
no movements and leaving every stock row unchanged; in particular a
second consume without an intervening unconsume fails, provided the first
consume wrote at least one movement (a first consume whose aggregated
deltas all truncate to zero writes nothing, and the second call then
succeeds — see the counterexample). -/
theorem claim_C3_consume_idempotency (ctx : Ctx) (s : DBState)
    (p : ConsumeEventRequest) :
    (ConsumedGuard ctx s p.event_id →
      consume_event_from_stock ctx s p
        = .error (.conflict "Event already consumed. Unconsume it before consuming again.")
      ∧ runState s (consume_event_from_stock ctx s p) = s)
    ∧ (∀ s1 written p2, consume_event_from_stock ctx s p = .ok (s1, written) →
        written ≠ [] → p2.event_id = p.event_id →
        consume_event_from_stock ctx s1 p2
          = .error (.conflict "Event already consumed. Unconsume it before consuming again.")) := by
  constructor
  · intro hg
    have herr : consume_event_from_stock ctx s p
        = .error (.conflict "Event already consumed. Unconsume it before consuming again.") := by
      unfold consume_event_from_stock
      by_cases hany : s.movements.any (isActiveConsume p.event_id) = true
      · rw [if_pos hany]
      · rcases hg with hg | ⟨ev, hev, hleg⟩
        · exact absurd hg hany
        · rw [if_neg hany, hev]
          dsimp only
          rw [if_pos hleg]
    refine ⟨herr, ?_⟩
    rw [herr]
    rfl
  · intro s1 written p2 hok hw hid
    have hguard := consume_ok_marks_event ctx s p s1 written hok hw
    unfold consume_event_from_stock
    rw [hid, if_pos hguard]

/-! ## C2: reversal round-trip -/

theorem specsMovements_mem_of (n : Nat) (l : List MoveSpec) (a : MoveSpec)
    (ha : a ∈ l) : ∃ n', specMovement n' a ∈ specsMovements n l := by
  induction l generalizing n with
  | nil => cases ha
  | cons b t ih =>
    rcases List.mem_cons.mp ha with heq | hmem
    · subst heq
      exact ⟨n, List.mem_cons_self _ _⟩
    · rcases ih (n + 1) hmem with ⟨n', hn'⟩
      exact ⟨n', List.mem_cons_of_mem _ hn'⟩

theorem specsMovements_eq_nil (n : Nat) (l : List MoveSpec)
    (h : specsMovements n l = []) : l = [] := by
  cases l with
  | nil => rfl
  | cons a t => exact List.noConfusion h

theorem normalizeAndMark_tagged (eid : Nat) (m : Movement)
    (h1 : m.source_event_id = some eid)
    (h2 : m.source_type = some "event_consume") :
    normalizeAndMark eid m = { m with is_reversed := true } := by
  unfold normalizeAndMark
  dsimp only
  have hc1 : (m.source_event_id == none) = false := by
    rw [h1]
    rfl
  rw [hc1]
  simp only [Bool.false_eq_true, if_false]
  rw [h2]
  rw [show (lowerStr (stripStr ((some "event_consume").getD "")) == "") = false from rfl]
  rw [show (lowerStr (stripStr ((some "event_consume").getD "")) == "event") = false from rfl]
  simp only [Bool.or_self, Bool.false_eq_true, if_false]
  rw [h2]

theorem applyList_written_of_spec (s : DBState) (l : List MoveSpec) (a : MoveSpec)
    (ha : a ∈ l) : ∃ n, specMovement n a ∈ (applyList s l).2 := by
  rw [applyList_snd]
  exact specsMovements_mem_of s.nextId l a ha

theorem deltaSum_reversal (eid : Nat) (reason : String) (n : Nat)
    (specs : List MoveSpec) (loc : Loc) (iid : Nat) :
    deltaSum ((specsMovements n specs).map (reversalSpec eid reason)) loc iid
      = -(deltaSum specs loc iid) := by
  induction specs generalizing n with
  | nil => rfl
  | cons a t ih =>
    show deltaSum (reversalSpec eid reason (specMovement n a)
        :: (specsMovements (n + 1) t).map (reversalSpec eid reason)) loc iid = _
    rw [deltaSum_cons, deltaSum_cons, ih (n + 1)]
    by_cases h : loc = a.location ∧ iid = a.inventory_item_id
    · rw [if_pos, if_pos h]
      · show -a.delta + _ = _
        ring
      · exact h
    · rw [if_neg, if_neg h]
      · ring
      · exact h

/-- The effect of the movement-reversing loop of unconsume: marking the
found movements in place and applying their sign-flipped reversals
restores every stock quantity and records the reversal links. -/
theorem unconsume_branch_main (s s1 : DBState) (eid : Nat) (reason : String)
    (specs : List MoveSpec) (written : List Movement) (P : Movement → Bool)
    (hs1 : s1 = (applyList s specs).1)
    (hwr : written = (applyList s specs).2)
    (hall : ∀ a ∈ specs, a.source_event_id = some eid
      ∧ a.source_type = some "event_consume" ∧ a.is_reversal = false)
    (hP : ∀ m ∈ written, P m = true) :
    (∀ loc iid,
      stockQty (applyList { s1 with movements := s1.movements.map (fun m => if P m = true then normalizeAndMark eid m else m) } (written.map (reversalSpec eid reason))).1 loc iid
        = stockQty s loc iid)
    ∧ ∀ m ∈ written,
        ({ m with is_reversed := true }
          ∈ (applyList { s1 with movements := s1.movements.map (fun m => if P m = true then normalizeAndMark eid m else m) } (written.map (reversalSpec eid reason))).1.movements
        ∧ ∃ rm ∈ (applyList { s1 with movements := s1.movements.map (fun m => if P m = true then normalizeAndMark eid m else m) } (written.map (reversalSpec eid reason))).1.movements,
            rm.change = -m.change ∧ rm.is_reversal = true
            ∧ rm.reversal_of_id = some m.mid
            ∧ rm.location = m.location
            ∧ rm.inventory_item_id = m.inventory_item_id) := by
  constructor
  · intro loc iid
    rw [stockQty_applyList]
    have hMq : stockQty { s1 with movements := s1.movements.map (fun m => if P m = true then normalizeAndMark eid m else m) } loc iid = stockQty s1 loc iid := rfl
    rw [hMq, hs1, stockQty_applyList, hwr, applyList_snd, deltaSum_reversal]
    omega
  · intro m hm
    have hm' := hm
    rw [hwr, applyList_snd] at hm'
    obtain ⟨n', a, ha, hmeq⟩ := specsMovements_mem _ _ _ hm'
    obtain ⟨ha1, ha2, _⟩ := hall a ha
    have hfields1 : m.source_event_id = some eid := by
      rw [hmeq]
      exact ha1
    have hfields2 : m.source_type = some "event_consume" := by
      rw [hmeq]
      exact ha2
    constructor
    · rw [applyList_fst_movements]
      apply List.mem_append_left
      apply List.mem_map.mpr
      refine ⟨m, ?_, ?_⟩
      · rw [hs1, applyList_fst_movements]
        apply List.mem_append_right
        rw [← hwr]
        exact hm
      · dsimp only
        rw [if_pos (hP m hm)]
        exact normalizeAndMark_tagged eid m hfields1 hfields2
    · have hmemRS : reversalSpec eid reason m
          ∈ written.map (reversalSpec eid reason) :=
        List.mem_map_of_mem _ hm
      obtain ⟨n'', hn''⟩ := applyList_written_of_spec
        { s1 with movements := s1.movements.map (fun m => if P m = true then normalizeAndMark eid m else m) }
        (written.map (reversalSpec eid reason)) _ hmemRS
      refine ⟨specMovement n'' (reversalSpec eid reason m), ?_, rfl, rfl, rfl, rfl, rfl⟩
      rw [applyList_fst_movements]
      exact List.mem_append_right _ hn''

/-- C2: after a successful consume, an immediate `location=ALL` unconsume
of the same event restores every cached stock quantity to its
pre-consume value, and every movement the consume wrote ends up flagged
`is_reversed` with a reversal movement carrying the exact negated change,
`is_reversal=true` and `reversal_of_id` pointing at it.  (When the
consume wrote no movements the unconsume raises Conflict and the rolled
back state already equals the pre-consume one.) -/
theorem claim_C2_reversal_roundtrip (ctx : Ctx) (s : DBState)
    (p : ConsumeEventRequest) (s1 : DBState) (written : List Movement)
    (r : Option String)
    (h : consume_event_from_stock ctx s p = .ok (s1, written)) :
    (∀ loc iid,
      stockQty (runState s1 (unconsume_event_from_stock ctx s1
        { event_id := p.event_id, location := none, reason := r })) loc iid
      = stockQty s loc iid)
    ∧ ∀ m ∈ written,
        ({ m with is_reversed := true }
            ∈ (runState s1 (unconsume_event_from_stock ctx s1
              { event_id := p.event_id, location := none, reason := r })).movements
        ∧ ∃ rm ∈ (runState s1 (unconsume_event_from_stock ctx s1
              { event_id := p.event_id, location := none, reason := r })).movements,
            rm.change = -m.change ∧ rm.is_reversal = true
            ∧ rm.reversal_of_id = some m.mid
            ∧ rm.location = m.location
            ∧ rm.inventory_item_id = m.inventory_item_id) := by
  obtain ⟨hany, ev, hev, hleg, specs, hs1, hwr, hall⟩ :=
    consume_ok_inversion ctx s p s1 written h
  have hnomatch : ∀ m ∈ s.movements,
      ¬((isActiveConsume p.event_id m
        && locFilter (none : Option Loc) m) = true) := by
    intro m hm hc
    rw [Bool.and_eq_true] at hc
    exact (List.any_eq_false.mp hany m hm) hc.1
  have hwr_all : ∀ m ∈ written, (isActiveConsume p.event_id m
      && locFilter (none : Option Loc) m) = true := by
    intro m hm
    rw [hwr, applyList_snd] at hm
    rcases specsMovements_mem _ _ _ hm with ⟨n', a, ha, hmeq⟩
    obtain ⟨h1, h2, _⟩ := hall a ha
    subst hmeq
    simp [isActiveConsume, locFilter, specMovement, h1, h2]
  have hmovs1 : s1.movements = s.movements ++ written := by
    rw [hs1, hwr]
    exact applyList_fst_movements s specs
  have hfilter : s1.movements.filter (fun m => isActiveConsume p.event_id m
      && locFilter (none : Option Loc) m) = written := by
    rw [hmovs1, List.filter_append]
    rw [List.filter_eq_nil_iff.mpr hnomatch]
    rw [List.filter_eq_self.mpr hwr_all]
    rfl
  unfold unconsume_event_from_stock
  rw [show ({ event_id := p.event_id, location := none, reason := r }
      : UnconsumeEventRequest).event_id = p.event_id from rfl]
  rw [hev]
  dsimp only
  rw [hfilter]
  by_cases hwnil : written = []
  · subst hwnil
    have hspecs_nil : specs = [] := by
      apply specsMovements_eq_nil s.nextId
      rw [← applyList_snd, ← hwr]
    have hs1s : s1 = s := by
      rw [hs1, hspecs_nil]
      rfl
    rw [show (([] : List Movement).isEmpty) = true from rfl]
    simp only [if_true]
    have hlegf : s1.movements.filter (fun m => isLegacyConsume ev m
        && locFilter (none : Option Loc) m) = [] := by
      apply List.filter_eq_nil_iff.mpr
      intro m hm hc
      rw [Bool.and_eq_true] at hc
      rw [hs1s] at hm
      exact (List.any_eq_false.mp hleg m hm) hc.1
    rw [hlegf]
    rw [show (([] : List Movement).isEmpty) = true from rfl]
    simp only [if_true]
    constructor
    · intro loc iid
      rw [runState_error, hs1s]
    · intro m hm
      cases hm
  · have hne : (written.isEmpty) = false := by
      cases written with
      | nil => exact absurd rfl hwnil
      | cons a t => rfl
    rw [hne]
    simp only [Bool.false_eq_true, if_false]
    rw [runState_ok]
    exact unconsume_branch_main s s1 p.event_id
      (pyOrStr r (default_event_unconsumed_reason ev)) specs written
      (fun m => isActiveConsume p.event_id m && locFilter (none : Option Loc) m)
      hs1 hwr hall hwr_all


/-- C2 witness: concrete garnish consume of event 1 (writes one −3
movement at BAR) followed by an ALL unconsume, instantiated at the BAR
stock row of item 10 and at the written movement. -/
theorem claim_C2_witness :
    consume_event_from_stock ctxG initState pG = .ok (sG1, [mvG])
    ∧ stockQty (runState sG1 (unconsume_event_from_stock ctxG sG1
        { event_id := pG.event_id, location := none, reason := none })) Loc.BAR 10
      = stockQty initState Loc.BAR 10
    ∧ ({ mvG with is_reversed := true }
        ∈ (runState sG1 (unconsume_event_from_stock ctxG sG1
          { event_id := pG.event_id, location := none, reason := none })).movements
      ∧ ∃ rm ∈ (runState sG1 (unconsume_event_from_stock ctxG sG1
          { event_id := pG.event_id, location := none, reason := none })).movements,
          rm.change = -mvG.change ∧ rm.is_reversal = true
          ∧ rm.reversal_of_id = some mvG.mid
          ∧ rm.location = mvG.location
          ∧ rm.inventory_item_id = mvG.inventory_item_id) := by
  have h : consume_event_from_stock ctxG initState pG = .ok (sG1, [mvG]) := by decide
  have hc := claim_C2_reversal_roundtrip ctxG initState pG sG1 [mvG] none h
  exact ⟨h, hc.1 Loc.BAR 10, hc.2 mvG (List.mem_singleton_self _)⟩

/-- C3 witness: with the tagged −3 movement of event 1 present, a consume
fails with Conflict and rolls back; and after the concrete successful
movement-writing consume, an immediate second consume fails with
Conflict. -/
theorem claim_C3_witness :
    (consume_event_from_stock ctxG sG1 pG
        = .error (.conflict "Event already consumed. Unconsume it before consuming again.")
      ∧ runState sG1 (consume_event_from_stock ctxG sG1 pG) = sG1)
    ∧ consume_event_from_stock ctxG sG1 pG
        = .error (.conflict "Event already consumed. Unconsume it before consuming again.") := by
  refine ⟨(claim_C3_consume_idempotency ctxG sG1 pG).1 (Or.inl (by decide)), ?_⟩
  exact (claim_C3_consume_idempotency ctxG initState pG).2 sG1 [mvG] pG
    (by decide) (by decide) rfl

/-- C4 witness: the spec's example transfer — 10 from WAREHOUSE
(available 15) to BAR succeeds, leaving WAREHOUSE=5 and BAR+=10 with the
combined total conserved. -/
theorem claim_C4_witness :
    create_transfer ctxT sT pT = .ok (sT1, [mvT1, mvT2])
    ∧ (stockQty sT1 pT.from_location pT.inventory_item_id
          = stockQty sT pT.from_location pT.inventory_item_id - pT.quantity
      ∧ stockQty sT1 pT.to_location pT.inventory_item_id
          = stockQty sT pT.to_location pT.inventory_item_id + pT.quantity
      ∧ stockQty sT1 pT.from_location pT.inventory_item_id
          + stockQty sT1 pT.to_location pT.inventory_item_id
        = stockQty sT pT.from_location pT.inventory_item_id
          + stockQty sT pT.to_location pT.inventory_item_id) := by
  have h : create_transfer ctxT sT pT = .ok (sT1, [mvT1, mvT2]) := by decide
  exact ⟨h, claim_C4_transfer_conservation ctxT sT pT sT1 [mvT1, mvT2] h (by decide)⟩

/-- C5 witness: the spec's follow-up — a second transfer of 10 from
WAREHOUSE (now available 5) fails with Conflict and leaves both locations
unchanged. -/
theorem claim_C5_witness :
    (∃ d, create_transfer ctxT sT1 pT = .error (.conflict d))
    ∧ runState sT1 (create_transfer ctxT sT1 pT) = sT1 :=
  claim_C5_transfer_insufficient ctxT sT1 pT (by decide) (by decide)
    (Or.inr ⟨{ location := .WAREHOUSE, inventory_item_id := 20, quantity := 5,
               reserved_quantity := 0 }, by decide, by decide⟩)

/-! ## C8: location=ALL warehouse-first split -/

theorem allSplitSpecs_cons (s : DBState) (eid : Nat) (reason : String)
    (src : Option Int) (pr : Nat × Int) (rest : List (Nat × Int)) :
    allSplitSpecs s eid reason src (pr :: rest)
      = (if pr.2 == 0 then []
         else
          (if (warehouseFirstSplit (availQty s .WAREHOUSE pr.1) (-pr.2)).1 != 0 then
            [consumeSpec .WAREHOUSE pr.1
              (-(warehouseFirstSplit (availQty s .WAREHOUSE pr.1) (-pr.2)).1) reason src eid]
           else [])
          ++ (if (warehouseFirstSplit (availQty s .WAREHOUSE pr.1) (-pr.2)).2 != 0 then
            [consumeSpec .BAR pr.1
              (-(warehouseFirstSplit (availQty s .WAREHOUSE pr.1) (-pr.2)).2) reason src eid]
           else []))
        ++ allSplitSpecs s eid reason src rest := by
  unfold allSplitSpecs
  rw [List.flatMap_cons]

theorem consumeALLSpecs_sufficient (s : DBState) (eid : Nat) (reason : String)
    (src : Option Int) (deltas : List (Nat × Int))
    (hneg : ∀ pr ∈ deltas, pr.2 ≤ 0)
    (havail : ∀ pr ∈ deltas, 0 ≤ availQty s .WAREHOUSE pr.1
      ∧ 0 ≤ availQty s .BAR pr.1)
    (hsuff : ∀ pr ∈ deltas,
      -(pr.2) ≤ availQty s .WAREHOUSE pr.1 + availQty s .BAR pr.1) :
    consumeALLSpecs s eid reason src deltas
      = .ok (allSplitSpecs s eid reason src deltas) := by
  induction deltas with
  | nil => rfl
  | cons pr rest ih =>
    have ihr := ih (fun q hq => hneg q (List.mem_cons_of_mem _ hq))
      (fun q hq => havail q (List.mem_cons_of_mem _ hq))
      (fun q hq => hsuff q (List.mem_cons_of_mem _ hq))
    have hmem := List.mem_cons_self pr rest
    unfold consumeALLSpecs
    rw [allSplitSpecs_cons]
    by_cases hz : (pr.2 == 0) = true
    · rw [if_pos hz, if_pos hz, ihr, List.nil_append]
    · rw [if_neg hz, if_neg hz]
      have hlt : pr.2 < 0 :=
        lt_of_le_of_ne (hneg pr hmem) (by simpa using hz)
      rw [if_neg (show ¬(pr.2 > 0) from by omega)]
      dsimp only
      obtain ⟨hw0, hb0⟩ := havail pr hmem
      have hs0 := hsuff pr hmem
      rw [if_neg (show ¬(availQty s .WAREHOUSE pr.1 + availQty s .BAR pr.1
          < -pr.2) from by omega)]
      have htb : min (availQty s .BAR pr.1)
          (-pr.2 - min (availQty s .WAREHOUSE pr.1) (-pr.2))
          = -pr.2 - min (availQty s .WAREHOUSE pr.1) (-pr.2) := by
        omega
      rw [htb, ihr]
      rfl

theorem consumeALLSpecs_insufficient (s : DBState) (eid : Nat) (reason : String)
    (src : Option Int) (deltas : List (Nat × Int))
    (hneg : ∀ pr ∈ deltas, pr.2 ≤ 0)
    (hfail : ∃ pr ∈ deltas, pr.2 < 0
      ∧ availQty s .WAREHOUSE pr.1 + availQty s .BAR pr.1 < -(pr.2)) :
    ∃ d, consumeALLSpecs s eid reason src deltas = .error (.conflict d) := by
  induction deltas with
  | nil =>
    rcases hfail with ⟨pr, hpr, _⟩
    cases hpr
  | cons pr rest ih =>
    unfold consumeALLSpecs
    by_cases hz : (pr.2 == 0) = true
    · rw [if_pos hz]
      apply ih (fun q hq => hneg q (List.mem_cons_of_mem _ hq))
      rcases hfail with ⟨q, hq, hqlt, hqa⟩
      rcases List.mem_cons.mp hq with heq | hmem
      · subst heq
        exact absurd (beq_iff_eq.mp hz) (by omega)
      · exact ⟨q, hmem, hqlt, hqa⟩
    · rw [if_neg hz]
      have hle := hneg pr (List.mem_cons_self pr rest)
      rw [if_neg (show ¬(pr.2 > 0) from by omega)]
      dsimp only
      by_cases hins : availQty s .WAREHOUSE pr.1 + availQty s .BAR pr.1 < -pr.2
      · rw [if_pos hins]
        exact ⟨_, rfl⟩
      · rw [if_neg hins]
        have : ∃ d, consumeALLSpecs s eid reason src rest
            = .error (.conflict d) := by
          apply ih (fun q hq => hneg q (List.mem_cons_of_mem _ hq))
          rcases hfail with ⟨q, hq, hqlt, hqa⟩
          rcases List.mem_cons.mp hq with heq | hmem
          · subst heq
            omega
          · exact ⟨q, hmem, hqlt, hqa⟩
        rcases this with ⟨d, hd⟩
        rw [hd]
        exact ⟨d, rfl⟩

theorem allSplitSpecs_mem_item (s : DBState) (eid : Nat) (reason : String)
    (src : Option Int) (deltas : List (Nat × Int)) :
    ∀ sp ∈ allSplitSpecs s eid reason src deltas,
      sp.inventory_item_id ∈ deltas.map Prod.fst := by
  induction deltas with
  | nil =>
    intro sp hsp
    cases hsp
  | cons pr rest ih =>
    intro sp hsp
    rw [allSplitSpecs_cons] at hsp
    rw [List.mem_append] at hsp
    rw [List.map_cons]
    rcases hsp with hsp | hsp
    · have heq : sp.inventory_item_id = pr.1 := by
        by_cases hz : (pr.2 == 0) = true
        · rw [if_pos hz] at hsp
          cases hsp
        · rw [if_neg hz] at hsp
          rw [List.mem_append] at hsp
          rcases hsp with hsp | hsp
          · split at hsp
            · rw [List.mem_singleton] at hsp
              subst hsp
              rfl
            · cases hsp
          · split at hsp
            · rw [List.mem_singleton] at hsp
              subst hsp
              rfl
            · cases hsp
      exact List.mem_cons.mpr (Or.inl heq)
    · exact List.mem_cons_of_mem _ (ih sp hsp)

theorem allSplitSpecs_count (s : DBState) (eid : Nat) (reason : String)
    (src : Option Int) (deltas : List (Nat × Int))
    (hkeys : (deltas.map Prod.fst).Nodup) (iid : Nat) (l : Loc) :
    ((allSplitSpecs s eid reason src deltas).filter
      (fun sp => sp.inventory_item_id == iid && sp.location == l)).length ≤ 1 := by
  induction deltas with
  | nil => simp [allSplitSpecs]
  | cons pr rest ih =>
    rw [List.map_cons, List.nodup_cons] at hkeys
    obtain ⟨hnotin, hnd⟩ := hkeys
    rw [allSplitSpecs_cons, List.filter_append, List.length_append]
    by_cases hiid : iid = pr.1
    · subst hiid
      have hrest : ((allSplitSpecs s eid reason src rest).filter
          (fun sp => sp.inventory_item_id == pr.1 && sp.location == l)).length = 0 := by
        rw [List.length_eq_zero]
        apply List.filter_eq_nil_iff.mpr
        intro sp hsp hc
        rw [Bool.and_eq_true, beq_iff_eq] at hc
        exact hnotin (hc.1 ▸ allSplitSpecs_mem_item s eid reason src rest sp hsp)
      rw [hrest]
      have hhead : ((if pr.2 == 0 then []
          else
           (if (warehouseFirstSplit (availQty s .WAREHOUSE pr.1) (-pr.2)).1 != 0 then
             [consumeSpec .WAREHOUSE pr.1
               (-(warehouseFirstSplit (availQty s .WAREHOUSE pr.1) (-pr.2)).1) reason src eid]
            else [])
           ++ (if (warehouseFirstSplit (availQty s .WAREHOUSE pr.1) (-pr.2)).2 != 0 then
             [consumeSpec .BAR pr.1
               (-(warehouseFirstSplit (availQty s .WAREHOUSE pr.1) (-pr.2)).2) reason src eid]
            else [])).filter
          (fun sp => sp.inventory_item_id == pr.1 && sp.location == l)).length ≤ 1 := by
        by_cases hz : (pr.2 == 0) = true
        · rw [if_pos hz]
          simp
        · rw [if_neg hz, List.filter_append, List.length_append]
          cases l
          · -- l = BAR: the WAREHOUSE singleton never matches
            have h1 : ((if (warehouseFirstSplit (availQty s .WAREHOUSE pr.1) (-pr.2)).1 != 0 then
                [consumeSpec .WAREHOUSE pr.1
                  (-(warehouseFirstSplit (availQty s .WAREHOUSE pr.1) (-pr.2)).1) reason src eid]
               else []).filter
              (fun sp => sp.inventory_item_id == pr.1 && sp.location == Loc.BAR)).length = 0 := by
              rw [List.length_eq_zero]
              apply List.filter_eq_nil_iff.mpr
              intro sp hsp hc
              split at hsp
              · rw [List.mem_singleton] at hsp
                subst hsp
                simp [consumeSpec] at hc
              · cases hsp
            rw [h1]
            split
            · simp [List.filter]
              split <;> simp
            · simp
          · -- l = WAREHOUSE: the BAR singleton never matches
            have h1 : ((if (warehouseFirstSplit (availQty s .WAREHOUSE pr.1) (-pr.2)).2 != 0 then
                [consumeSpec .BAR pr.1
                  (-(warehouseFirstSplit (availQty s .WAREHOUSE pr.1) (-pr.2)).2) reason src eid]
               else []).filter
              (fun sp => sp.inventory_item_id == pr.1 && sp.location == Loc.WAREHOUSE)).length = 0 := by
              rw [List.length_eq_zero]
              apply List.filter_eq_nil_iff.mpr
              intro sp hsp hc
              split at hsp
              · rw [List.mem_singleton] at hsp
                subst hsp
                simp [consumeSpec] at hc
              · cases hsp
            rw [h1]
            split
            · simp [List.filter]
              split <;> simp
            · simp
      omega
    · have hhead0 : ((if pr.2 == 0 then []
          else
           (if (warehouseFirstSplit (availQty s .WAREHOUSE pr.1) (-pr.2)).1 != 0 then
             [consumeSpec .WAREHOUSE pr.1
               (-(warehouseFirstSplit (availQty s .WAREHOUSE pr.1) (-pr.2)).1) reason src eid]
            else [])
           ++ (if (warehouseFirstSplit (availQty s .WAREHOUSE pr.1) (-pr.2)).2 != 0 then
             [consumeSpec .BAR pr.1
               (-(warehouseFirstSplit (availQty s .WAREHOUSE pr.1) (-pr.2)).2) reason src eid]
            else [])).filter
          (fun sp => sp.inventory_item_id == iid && sp.location == l)).length = 0 := by
        rw [List.length_eq_zero]
        apply List.filter_eq_nil_iff.mpr
        intro sp hsp hc
        rw [Bool.and_eq_true, beq_iff_eq] at hc
        apply hiid
        rw [← hc.1]
        by_cases hz : (pr.2 == 0) = true
        · rw [if_pos hz] at hsp
          cases hsp
        · rw [if_neg hz] at hsp
          rw [List.mem_append] at hsp
          rcases hsp with hsp | hsp
          · split at hsp
            · rw [List.mem_singleton] at hsp
              subst hsp
              rfl
            · cases hsp
          · split at hsp
            · rw [List.mem_singleton] at hsp
              subst hsp
              rfl
            · cases hsp
      rw [hhead0]
      have := ih hnd
      omega

/-- C8 (amended): with `location=ALL`, provided each involved item's
availability is nonnegative at both locations, each item's aggregated
deduction is planned as the warehouse-first split — drain WAREHOUSE up
to its available quantity, take the remainder from BAR — with at most
one movement per location per item, zero takes skipped; if any item
needs more than warehouse-available plus bar-available, the call fails
with a Conflict error instead.  The proviso is necessary: with a
negative availability the written movements deviate from the claimed
split (see the counterexample). -/
theorem claim_C8_all_location_split (ctx : Ctx) (s : DBState)
    (p : ConsumeEventRequest) (ev : Event) (deltas : List (Nat × Int))
    (hA : s.movements.any (isActiveConsume p.event_id) = false)
    (hE : ctx.events.find? (fun e => e.id == p.event_id) = some ev)
    (hL : s.movements.any (isLegacyConsume ev) = false)
    (hO : (eventOrders ctx p.event_id).isEmpty = false)
    (hD : aggregate_deltas ctx ((eventOrders ctx p.event_id).flatMap Order.items)
      = .ok deltas)
    (hloc : p.location = .all)
    (hneg : ∀ pr ∈ deltas, pr.2 ≤ 0)
    (hkeys : (deltas.map Prod.fst).Nodup)
    (havail : ∀ pr ∈ deltas, 0 ≤ availQty s .WAREHOUSE pr.1
      ∧ 0 ≤ availQty s .BAR pr.1) :
    ((∀ pr ∈ deltas, -(pr.2) ≤ availQty s .WAREHOUSE pr.1 + availQty s .BAR pr.1) →
      consume_event_from_stock ctx s p
        = .ok (applyList s (allSplitSpecs s p.event_id
            (pyOrStr p.reason (default_event_consumed_reason ev)) p.source_id deltas))
      ∧ ∀ iid l, ((allSplitSpecs s p.event_id
            (pyOrStr p.reason (default_event_consumed_reason ev)) p.source_id
            deltas).filter
          (fun sp => sp.inventory_item_id == iid && sp.location == l)).length ≤ 1)
    ∧ ((∃ pr ∈ deltas, pr.2 < 0
          ∧ availQty s .WAREHOUSE pr.1 + availQty s .BAR pr.1 < -(pr.2)) →
      ∃ d, consume_event_from_stock ctx s p = .error (.conflict d)) := by
  have hsetup : ∀ r : Except ApiError (List MoveSpec),
      consumeALLSpecs s p.event_id
        (pyOrStr p.reason (default_event_consumed_reason ev)) p.source_id deltas = r →
      consume_event_from_stock ctx s p
        = (match r with
           | .error e => .error e
           | .ok specs => .ok (applyList s specs)) := by
    intro r hr
    unfold consume_event_from_stock
    rw [hA]
    simp only [Bool.false_eq_true, if_false]
    rw [hE]
    dsimp only
    rw [hL]
    simp only [Bool.false_eq_true, if_false]
    rw [hO]
    simp only [Bool.false_eq_true, if_false]
    rw [hD]
    dsimp only
    rw [hloc]
    dsimp only
    rw [hr]
  constructor
  · intro hsuff
    have hok := consumeALLSpecs_sufficient s p.event_id
      (pyOrStr p.reason (default_event_consumed_reason ev)) p.source_id deltas
      hneg havail hsuff
    exact ⟨hsetup _ hok, fun iid l => allSplitSpecs_count s p.event_id
      (pyOrStr p.reason (default_event_consumed_reason ev)) p.source_id deltas
      hkeys iid l⟩
  · intro hfail
    obtain ⟨d, hd⟩ := consumeALLSpecs_insufficient s p.event_id
      (pyOrStr p.reason (default_event_consumed_reason ev)) p.source_id deltas
      hneg hfail
    exact ⟨d, hsetup _ hd⟩

/-- C8 witness: item 11 needs 7 with WAREHOUSE=5 and BAR=4 available —
the consume plans the 5/2 warehouse-first split with one movement per
location; with WAREHOUSE=3 and BAR=2 the same consume raises Conflict. -/
theorem claim_C8_witness :
    consume_event_from_stock ctxA sA pA
      = .ok (applyList sA (allSplitSpecs sA 2
          (pyOrStr pA.reason (default_event_consumed_reason { id := 2, name := "" }))
          pA.source_id [(11, -7)]))
    ∧ ((allSplitSpecs sA 2
          (pyOrStr pA.reason (default_event_consumed_reason { id := 2, name := "" }))
          pA.source_id [(11, -7)]).filter
        (fun sp => sp.inventory_item_id == 11 && sp.location == Loc.WAREHOUSE)).length ≤ 1
    ∧ (∃ d, consume_event_from_stock ctxA sB pA = .error (.conflict d)) := by
  have hA := (claim_C8_all_location_split ctxA sA pA { id := 2, name := "" }
    [(11, -7)] (by decide) (by decide) (by decide) (by decide) (by decide) rfl
    (by decide) (by decide) (by decide)).1 (by decide)
  have hB := (claim_C8_all_location_split ctxA sB pA { id := 2, name := "" }
    [(11, -7)] (by decide) (by decide) (by decide) (by decide) (by decide) rfl
    (by decide) (by decide) (by decide)).2 ⟨(11, -7), by decide, by decide, by decide⟩
  exact ⟨hA.1, hA.2 11 Loc.WAREHOUSE, hB⟩

/-- C8 counterexample: item 11 needs 7 with WAREHOUSE available 10 and
BAR available -3.  Combined availability is 7, so the total check
passes, and the spec's warehouse-first split would take all 7 from
WAREHOUSE and nothing from BAR (the remainder is 0).  The code instead
computes `take_bar = min(-3, 0) = -3`, which is truthy, and writes a
second movement crediting BAR +3: not a debit, not the remainder, and
the overall deduction is 4, not 7 — so the consume's result differs
from the split the claim describes. -/
theorem claim_C8_counterexample :
    availQty sC8 Loc.WAREHOUSE 11 = 10
    ∧ availQty sC8 Loc.BAR 11 = -3
    ∧ consume_event_from_stock ctxA sC8 pA = .ok (applyList sC8 specsC8)
    ∧ (applyList sC8 specsC8).2.map (fun m => (m.location, m.change))
        = [(Loc.WAREHOUSE, -7), (Loc.BAR, 3)]
    ∧ stockQty (applyList sC8 specsC8).1 Loc.WAREHOUSE 11 = 3
    ∧ stockQty (applyList sC8 specsC8).1 Loc.BAR 11 = 0
    ∧ allSplitSpecs sC8 2 "Event consumed: 2" none [(11, -7)]
        = [consumeSpec .WAREHOUSE 11 (-7) "Event consumed: 2" none 2]
    ∧ consume_event_from_stock ctxA sC8 pA
        ≠ .ok (applyList sC8
            (allSplitSpecs sC8 2 "Event consumed: 2" none [(11, -7)])) := by
  decide

/-- C9 witness: the 200 ml line of a 700 ml bottle deducts
`-int(200/700) = 0` bottles (no partial bottle), and the 3-unit garnish
line deducts exactly 3. -/
theorem claim_C9_witness :
    line_delta ctxC3 lineC3
      = .ok (some (12, -(py_int ((200 : Rat) / (((700 : Int)) : Rat)))))
    ∧ py_int ((200 : Rat) / (((700 : Int)) : Rat)) = 0
    ∧ line_delta ctxG lineG = .ok (some (10, -(py_int (3 : Rat))))
    ∧ py_int (3 : Rat) = 3 := by
  refine ⟨?_, ?_, ?_, by decide⟩
  · exact (claim_C9_line_deltas ctxC3 lineC3).1 3 { id := 3, volume_ml := 700 }
      { id := 12, item_type := "BOTTLE", bottle_id := some 3, ingredient_id := none }
      200 rfl (by decide) (by decide) (by decide) rfl
  · rw [py_int]
    norm_num
  · exact ((claim_C9_line_deltas ctxG lineG).2 5
      { id := 10, item_type := "GARNISH", bottle_id := none, ingredient_id := some 5 }
      rfl rfl (by decide)).2 3 rfl rfl

/-! ## C6: sequential depletion over the shared stock snapshot -/

theorem stockGet_cons (pr : Nat × Rat) (rest : List (Nat × Rat)) (j : Nat) :
    stockGet (pr :: rest) j = if pr.1 = j then pr.2 else stockGet rest j := by
  by_cases h : pr.1 = j
  · simp [stockGet, List.find?_cons, h]
  · simp [stockGet, List.find?_cons, h]

theorem stockGet_stockSet (st : List (Nat × Rat)) (i : Nat) (v : Rat) (j : Nat) :
    stockGet (stockSet st i v) j = if j = i then v else stockGet st j := by
  induction st with
  | nil =>
    rw [show stockSet [] i v = [(i, v)] from rfl, stockGet_cons]
    by_cases h : j = i
    · simp [h]
    · rw [if_neg (fun hh : i = j => h hh.symm), if_neg h]
  | cons pr rest ih =>
    by_cases hpi : pr.1 = i
    · rw [show stockSet (pr :: rest) i v = (i, v) :: rest from by
        simp [stockSet, hpi], stockGet_cons, stockGet_cons]
      by_cases h : j = i
      · simp [h]
      · have hij : ¬ i = j := fun hh => h hh.symm
        have hpj : ¬ pr.1 = j := by rw [hpi]; exact hij
        simp [h, hij, hpj]
    · rw [show stockSet (pr :: rest) i v = pr :: stockSet rest i v from by
        simp [stockSet, hpi], stockGet_cons, stockGet_cons, ih]
      by_cases hpj : pr.1 = j
      · have hji : ¬ j = i := fun hh => hpi (hpj.trans hh)
        simp [hpj, hji]
      · simp [hpj]

theorem allocLineSpec_congr (st st' : List (Nat × Rat)) (q : Nat × Rat)
    (h : stockGet st' q.1 = stockGet st q.1) :
    allocLineSpec st' q = allocLineSpec st q := by
  simp [allocLineSpec, h]

/-- With distinct ingredient keys, the depletion loop records for each
requested pair exactly the spec-predicted line over the snapshot the
event started with. -/
theorem alloc_event_lines (st : List (Nat × Rat)) (need : List (Nat × Rat))
    (hnd : (need.map Prod.fst).Nodup) :
    (alloc_event st need).2 = need.map (allocLineSpec st) := by
  induction need generalizing st with
  | nil => rfl
  | cons pr rest ih =>
    rw [List.map_cons] at hnd
    have hmem : pr.1 ∉ rest.map Prod.fst := (List.nodup_cons.mp hnd).1
    have hnd' : (rest.map Prod.fst).Nodup := (List.nodup_cons.mp hnd).2
    simp only [alloc_event]
    try dsimp only
    rw [List.map_cons]
    have hhead : (⟨pr.1, pr.2, min (stockGet st pr.1) pr.2,
        max 0 (pr.2 - min (stockGet st pr.1) pr.2)⟩ : AllocLine)
        = allocLineSpec st pr := by
      simp only [allocLineSpec, AllocLine.mk.injEq, true_and]
      exact max_eq_right (sub_nonneg.mpr (min_le_right _ _))
    have htail : (alloc_event (stockSet st pr.1
        (stockGet st pr.1 - min (stockGet st pr.1) pr.2)) rest).2
        = rest.map (allocLineSpec st) := by
      rw [ih _ hnd']
      refine List.map_congr_left (fun q hq => allocLineSpec_congr st _ q ?_)
      rw [stockGet_stockSet, if_neg]
      intro hh
      exact hmem (hh ▸ List.mem_map.mpr ⟨q, hq, rfl⟩)
    rw [hhead, htail]

theorem usedAt_nil (i : Nat) : usedAt [] i = 0 := rfl

theorem usedAt_cons (l : AllocLine) (ls : List AllocLine) (i : Nat) :
    usedAt (l :: ls) i
      = (if l.ingredient_id = i then l.used_stock_ml else 0) + usedAt ls i := by
  by_cases h : l.ingredient_id = i
  · simp [usedAt, List.filter_cons, h]
  · simp [usedAt, List.filter_cons, h]

theorem usedAt_eq_zero (ls : List AllocLine) (i : Nat)
    (h : ∀ l ∈ ls, l.ingredient_id ≠ i) : usedAt ls i = 0 := by
  induction ls with
  | nil => rfl
  | cons l ls ih =>
    rw [usedAt_cons, if_neg (h l (List.mem_cons_self l ls)), zero_add]
    exact ih (fun m hm => h m (List.mem_cons_of_mem l hm))

/-- With distinct ingredient keys, one event's pass leaves every
snapshot entry lower by exactly what its recorded lines used. -/
theorem alloc_event_stock (st : List (Nat × Rat)) (need : List (Nat × Rat))
    (hnd : (need.map Prod.fst).Nodup) (j : Nat) :
    stockGet (alloc_event st need).1 j
      = stockGet st j - usedAt (alloc_event st need).2 j := by
  induction need generalizing st with
  | nil => simp [alloc_event, usedAt_nil]
  | cons pr rest ih =>
    rw [List.map_cons] at hnd
    have hmem : pr.1 ∉ rest.map Prod.fst := (List.nodup_cons.mp hnd).1
    have hnd' : (rest.map Prod.fst).Nodup := (List.nodup_cons.mp hnd).2
    simp only [alloc_event]
    try dsimp only
    rw [ih _ hnd', usedAt_cons]
    try dsimp only
    by_cases hj : pr.1 = j
    · subst hj
      rw [if_pos rfl, stockGet_stockSet, if_pos rfl]
      have h0 : usedAt (alloc_event (stockSet st pr.1
          (stockGet st pr.1 - min (stockGet st pr.1) pr.2)) rest).2 pr.1 = 0 := by
        apply usedAt_eq_zero
        intro l hl
        rw [alloc_event_lines _ _ hnd'] at hl
        obtain ⟨q, hq, hql⟩ := List.mem_map.mp hl
        have hid : l.ingredient_id = q.1 := by rw [← hql]; rfl
        intro hcon
        apply hmem
        rw [← hcon, hid]
        exact List.mem_map.mpr ⟨q, hq, rfl⟩
      rw [h0]
      ring
    · rw [if_neg hj, stockGet_stockSet,
        if_neg (fun hh : j = pr.1 => hj hh.symm)]
      ring

/-- C6: during weekly-by-event generation, events given in ascending
date order are processed against one shared snapshot: the k-th event's
lines record `used = min(snapshot available, requested)` and
`shortfall = requested - used` over the snapshot as the earlier events
left it, and that snapshot carries every entry lowered by exactly the
amounts the earlier events' lines already used — so a later event is
never allocated stock an earlier event consumed. -/
theorem claim_C6_sequential_depletion (st0 : List (Nat × Rat))
    (evs : List EventNeeds)
    (hsorted : List.Sorted (fun a b : EventNeeds => a.event_date ≤ b.event_date) evs)
    (hnd : ∀ e ∈ evs, (e.ml_need.map Prod.fst).Nodup)
    (k : Nat) (hk : k < evs.length) :
    ((alloc_run st0 evs).2.getD k []
        = ((evs.getD k { event_date := 0, ml_need := [] }).ml_need).map
            (allocLineSpec (stock_before st0 evs k)))
    ∧ ∀ i, stockGet (stock_before st0 evs k) i
        = stockGet st0 i
          - (((alloc_run st0 evs).2.take k).map (fun ls => usedAt ls i)).sum := by
  induction evs generalizing st0 k with
  | nil => exact absurd hk (by simp)
  | cons e rest ih =>
    cases k with
    | zero =>
      constructor
      · simp only [alloc_run]
        try dsimp only
        rw [List.getD_cons_zero, List.getD_cons_zero,
          show stock_before st0 (e :: rest) 0 = st0 from rfl]
        exact alloc_event_lines st0 e.ml_need (hnd e (List.mem_cons_self e rest))
      · intro i
        rw [show stock_before st0 (e :: rest) 0 = st0 from rfl]
        simp
    | succ k =>
      have hk' : k < rest.length := by
        simpa using hk
      have hnd' : ∀ e' ∈ rest, (e'.ml_need.map Prod.fst).Nodup :=
        fun e' he' => hnd e' (List.mem_cons_of_mem e he')
      have hIH := ih (alloc_event st0 e.ml_need).1 hsorted.of_cons hnd' k hk'
      have hsb : stock_before st0 (e :: rest) (k + 1)
          = stock_before (alloc_event st0 e.ml_need).1 rest k := rfl
      constructor
      · simp only [alloc_run]
        try dsimp only
        rw [List.getD_cons_succ, List.getD_cons_succ, hsb]
        exact hIH.1
      · intro i
        rw [hsb, hIH.2 i]
        simp only [alloc_run]
        try dsimp only
        rw [List.take_succ_cons, List.map_cons, List.sum_cons,
          alloc_event_stock st0 e.ml_need (hnd e (List.mem_cons_self e rest)) i]
        try dsimp only
        ring

/-- C6 witness: gin snapshot of 3000 ml, event at date 5 needs 2000 ml,
event at date 6 needs 1125 ml; the second event sees only the 1000 ml
the first left, so its line uses 1000 and falls short by 125. -/
theorem claim_C6_witness :
    (List.Sorted (fun a b : EventNeeds => a.event_date ≤ b.event_date) evsC6
      ∧ (∀ e ∈ evsC6, (e.ml_need.map Prod.fst).Nodup)
      ∧ 1 < evsC6.length)
    ∧ ((alloc_run st0C6 evsC6).2.getD 1 []
        = ((evsC6.getD 1 { event_date := 0, ml_need := [] }).ml_need).map
            (allocLineSpec (stock_before st0C6 evsC6 1)))
    ∧ stockGet (stock_before st0C6 evsC6 1) 1
        = stockGet st0C6 1
          - (((alloc_run st0C6 evsC6).2.take 1).map (fun ls => usedAt ls 1)).sum := by
  have h := claim_C6_sequential_depletion st0C6 evsC6 (by decide) (by decide)
    1 (by decide)
  exact ⟨⟨by decide, by decide, by decide⟩, h.1, h.2 1⟩

/-! ## C7: generation idempotence -/

theorem lookupLast_mem (l : List Order) (m : Order → Bool) (o : Order)
    (h : lookupLast l m = some o) : o ∈ l ∧ m o = true := by
  unfold lookupLast at h
  have hm := List.mem_of_mem_getLast? h
  exact ⟨(List.mem_filter.mp hm).1, (List.mem_filter.mp hm).2⟩

theorem lookupLast_isSome_of_mem (l : List Order) (m : Order → Bool) (o : Order)
    (ho : o ∈ l) (hm : m o = true) : (lookupLast l m).isSome = true := by
  unfold lookupLast
  rw [List.getLast?_isSome]
  exact List.ne_nil_of_mem (List.mem_filter.mpr ⟨ho, hm⟩)

theorem map_nodup_inj {α β : Type} (f : α → β) (a b : α) (hf : f a = f b) :
    ∀ l : List α, (l.map f).Nodup → a ∈ l → b ∈ l → a = b := by
  intro l
  induction l with
  | nil => intro _ ha; cases ha
  | cons x xs ih =>
    intro h ha hb
    rw [List.map_cons, List.nodup_cons] at h
    rcases List.mem_cons.mp ha with ha1 | ha2
    · rcases List.mem_cons.mp hb with hb1 | hb2
      · rw [ha1, hb1]
      · exfalso
        apply h.1
        have hbm : f b ∈ xs.map f := List.mem_map.mpr ⟨b, hb2, rfl⟩
        rw [← hf, ha1] at hbm
        exact hbm
    · rcases List.mem_cons.mp hb with hb1 | hb2
      · exfalso
        apply h.1
        have ham : f a ∈ xs.map f := List.mem_map.mpr ⟨a, ha2, rfl⟩
        rw [hf, hb1] at ham
        exact ham
      · exact ih h.2 ha2 hb2

theorem eventKeyMatch_props (e : Nat) (s : Option Nat) (o : Order)
    (h : eventKeyMatch e s o = true) :
    o.scope = "EVENT" ∧ o.event_id = some e ∧ o.supplier_id = s := by
  unfold eventKeyMatch at h
  simp only [Bool.and_eq_true, beq_iff_eq] at h
  exact ⟨h.1.1, h.1.2, h.2⟩

theorem weeklyKeyMatch_props (s : Option Nat) (o : Order)
    (h : weeklyKeyMatch s o = true) :
    o.scope = "WEEKLY" ∧ o.supplier_id = s := by
  unfold weeklyKeyMatch at h
  simp only [Bool.and_eq_true, beq_iff_eq] at h
  exact ⟨h.1, h.2⟩

theorem mkEventOrder_match (e : Nat) (s : Option Nat) (n : Nat)
    (l : List OrderItemRow) : eventKeyMatch e s (mkEventOrder e s n l) = true := by
  simp [eventKeyMatch, mkEventOrder]

theorem mkWeeklyOrder_match (s : Option Nat) (n : Nat)
    (l : List OrderItemRow) : weeklyKeyMatch s (mkWeeklyOrder s n l) = true := by
  simp [weeklyKeyMatch, mkWeeklyOrder]

theorem eventKeys_eq_map (g : GenInput) :
    eventKeys g = (eventTriples g).map (fun t => (t.1, t.2.1)) := by
  unfold eventKeys eventTriples
  rw [List.map_flatMap]
  congr 1
  funext e
  rw [List.map_map]
  rfl

theorem eventTriples_window (g : GenInput)
    (t : Nat × Option Nat × List OrderItemRow) (h : t ∈ eventTriples g) :
    t.1 ∈ g.event_gen.map (fun e => e.event_id) := by
  unfold eventTriples at h
  obtain ⟨e, he, ht⟩ := List.mem_flatMap.mp h
  obtain ⟨gr, _, hte⟩ := List.mem_map.mp ht
  rw [← hte]
  exact List.mem_map.mpr ⟨e, he, rfl⟩

theorem staleOrder_event_false (wids : List Nat) (sids : List (Option Nat))
    (o : Order) (e : Nat) (s : Option Nat) (hm : eventKeyMatch e s o = true)
    (hw : e ∈ wids) : staleOrder wids sids o = false := by
  obtain ⟨hsc, hev, _⟩ := eventKeyMatch_props e s o hm
  unfold staleOrder
  rw [hev, hsc]
  simp
  exact fun _ => hw

theorem staleOrder_weekly_false (wids : List Nat) (sids : List (Option Nat))
    (o : Order) (s : Option Nat) (hm : weeklyKeyMatch s o = true)
    (hw : s ∈ sids) : staleOrder wids sids o = false := by
  obtain ⟨hsc, hsid⟩ := weeklyKeyMatch_props s o hm
  unfold staleOrder
  rw [hsc, hsid]
  simp
  exact fun _ => hw

theorem runTasks_eq_foldl (existing : List Order) (ts : List UpsTask)
    (acc : PhaseAcc) :
    runTasks existing acc ts
      = ts.foldl (fun a t => upsert_order existing t.mtch t.mkNew t.lines a) acc := by
  induction ts generalizing acc with
  | nil => rfl
  | cons t ts ih =>
    simp only [runTasks, List.foldl_cons]
    exact ih _

theorem eventPhase_eq_runTasks (existing : List Order) (g : GenInput)
    (acc : PhaseAcc) :
    eventPhase existing g acc = runTasks existing acc (eventTasks g) := by
  unfold eventPhase eventTasks
  rw [runTasks_eq_foldl, List.foldl_map]
  rfl

theorem weeklyPhase_eq_runTasks (existing : List Order) (g : GenInput)
    (acc : PhaseAcc) :
    weeklyPhase existing g acc = runTasks existing acc (weeklyTasks g) := by
  unfold weeklyPhase weeklyTasks
  rw [runTasks_eq_foldl, List.foldl_map]
  rfl

theorem upsert_order_none (existing : List Order) (m : Order → Bool)
    (mk : Nat → List OrderItemRow → Order) (lines : List OrderItemRow)
    (acc : PhaseAcc) (hl : lookupLast existing m = none) :
    upsert_order existing m mk lines acc
      = { acc with
          orders := acc.orders ++ [mk acc.next_oid lines]
          next_oid := acc.next_oid + 1
          created := acc.created ++ [acc.next_oid] } := by
  unfold upsert_order
  rw [hl]

theorem upsert_order_some_skip (existing : List Order) (m : Order → Bool)
    (mk : Nat → List OrderItemRow → Order) (lines : List OrderItemRow)
    (acc : PhaseAcc) (o : Order) (hl : lookupLast existing m = some o)
    (hd : isDraft o = false) :
    upsert_order existing m mk lines acc
      = { acc with skipped := acc.skipped ++ [o.oid] } := by
  unfold upsert_order
  rw [hl]
  try dsimp only
  rw [hd]
  rfl

theorem upsert_order_some_update (existing : List Order) (m : Order → Bool)
    (mk : Nat → List OrderItemRow → Order) (lines : List OrderItemRow)
    (acc : PhaseAcc) (o : Order) (hl : lookupLast existing m = some o)
    (hd : isDraft o = true) :
    upsert_order existing m mk lines acc
      = { acc with
          orders := acc.orders.map (fun x =>
            if x.oid == o.oid then { x with items := lines } else x)
          updated := acc.updated ++ [o.oid] } := by
  unfold upsert_order
  rw [hl]
  try dsimp only
  rw [hd]
  rfl

theorem upsert_order_next_le (existing : List Order) (m : Order → Bool)
    (mk : Nat → List OrderItemRow → Order) (lines : List OrderItemRow)
    (acc : PhaseAcc) :
    acc.next_oid ≤ (upsert_order existing m mk lines acc).next_oid := by
  unfold upsert_order
  cases hl : lookupLast existing m with
  | none =>
    dsimp only
    omega
  | some o =>
    dsimp only
    split
    · exact Nat.le_refl _
    · exact Nat.le_refl _

theorem upsert_order_mem (existing : List Order) (m : Order → Bool)
    (mk : Nat → List OrderItemRow → Order) (lines : List OrderItemRow)
    (acc : PhaseAcc) (o : Order) (ho : o ∈ acc.orders)
    (h : ∀ o', lookupLast existing m = some o' → o'.oid ≠ o.oid) :
    o ∈ (upsert_order existing m mk lines acc).orders := by
  unfold upsert_order
  cases hl : lookupLast existing m with
  | none =>
    dsimp only
    exact List.mem_append_left _ ho
  | some o' =>
    dsimp only
    split
    · exact ho
    · refine List.mem_map.mpr ⟨o, ho, ?_⟩
      have h' : ¬((o.oid == o'.oid) = true) := by
        simp only [beq_iff_eq]
        exact fun hh => h o' hl hh.symm
      try dsimp only
      rw [if_neg h']

theorem upsert_order_updated_mono (existing : List Order) (m : Order → Bool)
    (mk : Nat → List OrderItemRow → Order) (lines : List OrderItemRow)
    (acc : PhaseAcc) (a : Nat) (h : a ∈ acc.updated) :
    a ∈ (upsert_order existing m mk lines acc).updated := by
  unfold upsert_order
  cases hl : lookupLast existing m with
  | none => exact h
  | some o =>
    dsimp only
    split
    · exact h
    · exact List.mem_append_left _ h

theorem upsert_order_skipped_mono (existing : List Order) (m : Order → Bool)
    (mk : Nat → List OrderItemRow → Order) (lines : List OrderItemRow)
    (acc : PhaseAcc) (a : Nat) (h : a ∈ acc.skipped) :
    a ∈ (upsert_order existing m mk lines acc).skipped := by
  unfold upsert_order
  cases hl : lookupLast existing m with
  | none => exact h
  | some o =>
    dsimp only
    split
    · exact List.mem_append_left _ h
    · exact h

theorem runTasks_next_mono (existing : List Order) :
    ∀ (ts : List UpsTask) (acc : PhaseAcc),
      acc.next_oid ≤ (runTasks existing acc ts).next_oid := by
  intro ts
  induction ts with
  | nil => intro acc; exact Nat.le_refl _
  | cons t ts ih =>
    intro acc
    simp only [runTasks]
    exact le_trans (upsert_order_next_le existing t.mtch t.mkNew t.lines acc) (ih _)

theorem runTasks_created_nil (existing : List Order) :
    ∀ (ts : List UpsTask) (acc : PhaseAcc),
      (∀ t ∈ ts, (lookupLast existing t.mtch).isSome = true) →
      (runTasks existing acc ts).created = acc.created := by
  intro ts
  induction ts with
  | nil => intro acc _; rfl
  | cons t ts ih =>
    intro acc h
    simp only [runTasks]
    obtain ⟨o, ho⟩ := Option.isSome_iff_exists.mp (h t (List.mem_cons_self t ts))
    have h' := fun t' ht' => h t' (List.mem_cons_of_mem t ht')
    cases hd : isDraft o with
    | false =>
      rw [upsert_order_some_skip existing t.mtch t.mkNew t.lines acc o ho hd]
      exact ih _ h'
    | true =>
      rw [upsert_order_some_update existing t.mtch t.mkNew t.lines acc o ho hd]
      exact ih _ h'

theorem runTasks_frame (existing : List Order) (o : Order) :
    ∀ (ts : List UpsTask) (acc : PhaseAcc),
      o ∈ acc.orders →
      (∀ t ∈ ts, ∀ o', lookupLast existing t.mtch = some o' → o'.oid ≠ o.oid) →
      o ∈ (runTasks existing acc ts).orders := by
  intro ts
  induction ts with
  | nil => intro acc ho _; exact ho
  | cons t ts ih =>
    intro acc ho h
    simp only [runTasks]
    refine ih _ ?_ ?_
    · exact upsert_order_mem existing t.mtch t.mkNew t.lines acc o ho
        (h t (List.mem_cons_self t ts))
    · intro t' ht' o' hl'
      exact h t' (List.mem_cons_of_mem t ht') o' hl'

theorem runTasks_updated_mono (existing : List Order) (a : Nat) :
    ∀ (ts : List UpsTask) (acc : PhaseAcc),
      a ∈ acc.updated → a ∈ (runTasks existing acc ts).updated := by
  intro ts
  induction ts with
  | nil => intro acc h; exact h
  | cons t ts ih =>
    intro acc h
    simp only [runTasks]
    exact ih _ (upsert_order_updated_mono existing t.mtch t.mkNew t.lines acc a h)

theorem runTasks_skipped_mono (existing : List Order) (a : Nat) :
    ∀ (ts : List UpsTask) (acc : PhaseAcc),
      a ∈ acc.skipped → a ∈ (runTasks existing acc ts).skipped := by
  intro ts
  induction ts with
  | nil => intro acc h; exact h
  | cons t ts ih =>
    intro acc h
    simp only [runTasks]
    exact ih _ (upsert_order_skipped_mono existing t.mtch t.mkNew t.lines acc a h)

theorem runTasks_hit (existing : List Order) (o : Order) :
    ∀ (l1 : List UpsTask) (t : UpsTask) (l2 : List UpsTask) (acc : PhaseAcc),
      lookupLast existing t.mtch = some o →
      o ∈ acc.orders →
      (∀ t' ∈ l1 ++ l2, ∀ o', lookupLast existing t'.mtch = some o' → o'.oid ≠ o.oid) →
      (isDraft o = true →
        o.oid ∈ (runTasks existing acc (l1 ++ t :: l2)).updated
        ∧ { o with items := t.lines } ∈ (runTasks existing acc (l1 ++ t :: l2)).orders)
      ∧ (isDraft o = false →
        o.oid ∈ (runTasks existing acc (l1 ++ t :: l2)).skipped
        ∧ o ∈ (runTasks existing acc (l1 ++ t :: l2)).orders) := by
  intro l1
  induction l1 with
  | nil =>
    intro t l2 acc hl ho h
    rw [List.nil_append]
    simp only [runTasks]
    constructor
    · intro hd
      rw [upsert_order_some_update existing t.mtch t.mkNew t.lines acc o hl hd]
      constructor
      · refine runTasks_updated_mono existing o.oid l2 _ ?_
        exact List.mem_append_right _ (List.mem_cons_self _ _)
      · refine runTasks_frame existing _ l2 _ ?_ ?_
        · refine List.mem_map.mpr ⟨o, ho, ?_⟩
          have hq : (o.oid == o.oid) = true := by simp
          try dsimp only
          rw [if_pos hq]
        · intro t' ht' o' hl'
          exact h t' ht' o' hl'
    · intro hd
      rw [upsert_order_some_skip existing t.mtch t.mkNew t.lines acc o hl hd]
      constructor
      · refine runTasks_skipped_mono existing o.oid l2 _ ?_
        exact List.mem_append_right _ (List.mem_cons_self _ _)
      · exact runTasks_frame existing o l2 _ ho h
  | cons t1 l1 ih =>
    intro t l2 acc hl ho h
    rw [List.cons_append]
    simp only [runTasks]
    refine ih t l2 _ hl ?_ ?_
    · refine upsert_order_mem existing t1.mtch t1.mkNew t1.lines acc o ho ?_
      exact h t1 (List.mem_append_left _ (List.mem_cons_self t1 l1))
    · intro t' ht' o' hl'
      refine h t' ?_ o' hl'
      rcases List.mem_append.mp ht' with h1 | h2
      · exact List.mem_append_left _ (List.mem_cons_of_mem _ h1)
      · exact List.mem_append_right _ h2

theorem runTasks_create (existing : List Order) (bound : Nat)
    (hex : ∀ x ∈ existing, x.oid < bound) :
    ∀ (l1 : List UpsTask) (t : UpsTask) (l2 : List UpsTask) (acc : PhaseAcc),
      (∀ n, (t.mkNew n t.lines).oid = n) →
      bound ≤ acc.next_oid →
      lookupLast existing t.mtch = none →
      ∃ n, bound ≤ n
        ∧ t.mkNew n t.lines ∈ (runTasks existing acc (l1 ++ t :: l2)).orders := by
  intro l1
  induction l1 with
  | nil =>
    intro t l2 acc hmk hb hl
    rw [List.nil_append]
    simp only [runTasks]
    rw [upsert_order_none existing t.mtch t.mkNew t.lines acc hl]
    refine ⟨acc.next_oid, hb, ?_⟩
    refine runTasks_frame existing _ l2 _ ?_ ?_
    · exact List.mem_append_right _ (List.mem_cons_self _ _)
    · intro t' _ o' hl' heq
      have hm := (lookupLast_mem existing t'.mtch o' hl').1
      have hlt : o'.oid < bound := hex o' hm
      rw [hmk acc.next_oid] at heq
      omega
  | cons t1 l1 ih =>
    intro t l2 acc hmk hb hl
    rw [List.cons_append]
    simp only [runTasks]
    refine ih t l2 _ hmk ?_ hl
    exact le_trans hb (upsert_order_next_le existing t1.mtch t1.mkNew t1.lines acc)

theorem upsert_order_AccInv (existing : List Order) (m : Order → Bool)
    (mk : Nat → List OrderItemRow → Order) (lines : List OrderItemRow)
    (acc : PhaseAcc) (hmk : ∀ n l, (mk n l).oid = n) (h : AccInv acc) :
    AccInv (upsert_order existing m mk lines acc) := by
  unfold AccInv at h ⊢
  unfold upsert_order
  cases hl : lookupLast existing m with
  | none =>
    dsimp only
    constructor
    · rw [List.map_append]
      refine List.Nodup.append h.1 (List.nodup_singleton _) ?_
      intro a ha hb
      obtain ⟨x, hx, hax⟩ := List.mem_map.mp ha
      have h1 : a < acc.next_oid := by rw [← hax]; exact h.2 x hx
      have h2 : a = acc.next_oid := by
        simp only [List.map_cons, List.map_nil, List.mem_singleton] at hb
        rw [hb, hmk]
      omega
    · intro x hx
      rcases List.mem_append.mp hx with h1 | h2
      · have := h.2 x h1
        omega
      · simp only [List.mem_singleton] at h2
        rw [h2, hmk]
        omega
  | some o =>
    dsimp only
    split
    · exact h
    · constructor
      · have hmap : (acc.orders.map (fun x =>
            if x.oid == o.oid then { x with items := lines } else x)).map
              (fun x => x.oid) = acc.orders.map (fun x => x.oid) := by
          rw [List.map_map]
          refine List.map_congr_left ?_
          intro x _
          simp only [Function.comp_apply]
          split
          · rfl
          · rfl
        try dsimp only
        rw [hmap]
        exact h.1
      · intro x hx
        obtain ⟨y, hy, hxy⟩ := List.mem_map.mp hx
        have hb := h.2 y hy
        rw [← hxy]
        split
        · exact hb
        · exact hb

theorem runTasks_AccInv (existing : List Order) :
    ∀ (ts : List UpsTask) (acc : PhaseAcc),
      (∀ t ∈ ts, ∀ n l, (t.mkNew n l).oid = n) →
      AccInv acc → AccInv (runTasks existing acc ts) := by
  intro ts
  induction ts with
  | nil => intro acc _ h; exact h
  | cons t ts ih =>
    intro acc hmk h
    simp only [runTasks]
    refine ih _ (fun t' ht' => hmk t' (List.mem_cons_of_mem t ht')) ?_
    exact upsert_order_AccInv existing t.mtch t.mkNew t.lines acc
      (hmk t (List.mem_cons_self t ts)) h

theorem nodup_key_ne {α β : Type} (k : α → β) (l1 l2 : List α) (a : α)
    (h : ((l1 ++ a :: l2).map k).Nodup) : ∀ b ∈ l1 ++ l2, k b ≠ k a := by
  rw [List.map_append, List.map_cons] at h
  intro b hb he
  rcases List.mem_append.mp hb with h1 | h2
  · have hd := (List.nodup_append.mp h).2.2
    exact hd (List.mem_map.mpr ⟨b, h1, rfl⟩)
      (by rw [he]; exact List.mem_cons_self _ _)
  · have h2' := (List.nodup_append.mp h).2.1
    have hni := (List.nodup_cons.mp h2').1
    exact hni (by rw [← he]; exact List.mem_map.mpr ⟨b, h2, rfl⟩)

theorem mem_filter_scope (l : List Order) (s : String) (x : Order)
    (hx : x ∈ l.filter (fun o => o.scope == s)) : x ∈ l ∧ x.scope = s := by
  have h := List.mem_filter.mp hx
  exact ⟨h.1, by simpa using h.2⟩

theorem mem_filter_scope_of (l : List Order) (s : String) (x : Order)
    (hx : x ∈ l) (hs : x.scope = s) : x ∈ l.filter (fun o => o.scope == s) :=
  List.mem_filter.mpr ⟨hx, by simp [hs]⟩

theorem event_hit_hyp (ex base : List Order)
    (hsub : ∀ x ∈ ex, x ∈ base)
    (hnd : (base.map (fun x => x.oid)).Nodup)
    (t0 : Nat × Option Nat × List OrderItemRow)
    (l1 l2 : List (Nat × Option Nat × List OrderItemRow))
    (o : Order) (hmo : eventKeyMatch t0.1 t0.2.1 o = true) (hoex : o ∈ ex)
    (hknd : ((l1 ++ t0 :: l2).map (fun t => (t.1, t.2.1))).Nodup) :
    ∀ t' ∈ l1.map evTask ++ l2.map evTask, ∀ o',
      lookupLast ex t'.mtch = some o' → o'.oid ≠ o.oid := by
  intro t' ht' o' hl' heq
  have hkne := nodup_key_ne (fun t => (t.1, t.2.1)) l1 l2 t0 hknd
  obtain ⟨b, hb, hbt⟩ : ∃ b ∈ l1 ++ l2, evTask b = t' := by
    rcases List.mem_append.mp ht' with h1 | h2
    · obtain ⟨b, hbm, hbe⟩ := List.mem_map.mp h1
      exact ⟨b, List.mem_append_left _ hbm, hbe⟩
    · obtain ⟨b, hbm, hbe⟩ := List.mem_map.mp h2
      exact ⟨b, List.mem_append_right _ hbm, hbe⟩
  obtain ⟨ho'ex, hmo'⟩ := lookupLast_mem ex t'.mtch o' hl'
  rw [← hbt] at hmo'
  have heo : o' = o := map_nodup_inj (fun x => x.oid) o' o heq base hnd
    (hsub o' ho'ex) (hsub o hoex)
  obtain ⟨_, hev', hsid'⟩ := eventKeyMatch_props b.1 b.2.1 o' hmo'
  obtain ⟨_, hev, hsid⟩ := eventKeyMatch_props t0.1 t0.2.1 o hmo
  rw [heo] at hev' hsid'
  have h1 : b.1 = t0.1 := by
    rw [hev] at hev'
    exact (Option.some.inj hev').symm
  have h2 : b.2.1 = t0.2.1 := by
    rw [hsid] at hsid'
    exact hsid'.symm
  apply hkne b hb
  show (b.1, b.2.1) = (t0.1, t0.2.1)
  rw [h1, h2]

theorem weekly_hit_hyp (ex base : List Order)
    (hsub : ∀ x ∈ ex, x ∈ base)
    (hnd : (base.map (fun x => x.oid)).Nodup)
    (w0 : Option Nat × List OrderItemRow)
    (l1 l2 : List (Option Nat × List OrderItemRow))
    (o : Order) (hmo : weeklyKeyMatch w0.1 o = true) (hoex : o ∈ ex)
    (hknd : ((l1 ++ w0 :: l2).map (fun w => w.1)).Nodup) :
    ∀ t' ∈ l1.map wkTask ++ l2.map wkTask, ∀ o',
      lookupLast ex t'.mtch = some o' → o'.oid ≠ o.oid := by
  intro t' ht' o' hl' heq
  have hkne := nodup_key_ne (fun w => w.1) l1 l2 w0 hknd
  obtain ⟨b, hb, hbt⟩ : ∃ b ∈ l1 ++ l2, wkTask b = t' := by
    rcases List.mem_append.mp ht' with h1 | h2
    · obtain ⟨b, hbm, hbe⟩ := List.mem_map.mp h1
      exact ⟨b, List.mem_append_left _ hbm, hbe⟩
    · obtain ⟨b, hbm, hbe⟩ := List.mem_map.mp h2
      exact ⟨b, List.mem_append_right _ hbm, hbe⟩
  obtain ⟨ho'ex, hmo'⟩ := lookupLast_mem ex t'.mtch o' hl'
  rw [← hbt] at hmo'
  have heo : o' = o := map_nodup_inj (fun x => x.oid) o' o heq base hnd
    (hsub o' ho'ex) (hsub o hoex)
  obtain ⟨_, hsid'⟩ := weeklyKeyMatch_props b.1 o' hmo'
  obtain ⟨_, hsid⟩ := weeklyKeyMatch_props w0.1 o hmo
  rw [heo] at hsid'
  apply hkne b hb
  show b.1 = w0.1
  rw [← hsid', hsid]

theorem no_hit_of_scope (ex base : List Order)
    (hnd : (base.map (fun x => x.oid)).Nodup)
    (hsub : ∀ x ∈ ex, x ∈ base) (s : String)
    (hexs : ∀ x ∈ ex, x.scope = s)
    (ob : Order) (hob : ob ∈ base) (hos : ¬ ob.scope = s)
    (ts : List UpsTask) :
    ∀ t' ∈ ts, ∀ o', lookupLast ex t'.mtch = some o' → o'.oid ≠ ob.oid := by
  intro t' _ o' hl' heq
  have hm := (lookupLast_mem ex t'.mtch o' hl').1
  have heo : o' = ob := map_nodup_inj (fun x => x.oid) o' ob heq base hnd
    (hsub o' hm) hob
  apply hos
  rw [← heo]
  exact hexs o' hm

theorem no_hit_of_bound (ex : List Order) (bound : Nat)
    (hex : ∀ x ∈ ex, x.oid < bound) (ob : Order) (hb : bound ≤ ob.oid)
    (ts : List UpsTask) :
    ∀ t' ∈ ts, ∀ o', lookupLast ex t'.mtch = some o' → o'.oid ≠ ob.oid := by
  intro t' _ o' hl' heq
  have hm := (lookupLast_mem ex t'.mtch o' hl').1
  have := hex o' hm
  omega

theorem persist_generation_empty (st : OrdersState) (g : GenInput)
    (he : g.event_gen.isEmpty = true) :
    persist_generation st g =
      { orders := st.orders.filter (fun o =>
          !((o.scope == "EVENT" || o.scope == "WEEKLY") && isDraft o))
        next_oid := st.next_oid
        created_event_ids := [], updated_event_ids := [], skipped_event_ids := []
        created_weekly_ids := [], updated_weekly_ids := []
        skipped_weekly_ids := [] } := by
  unfold persist_generation
  try dsimp only
  rw [if_pos he]

theorem persist_generation_eq (st : OrdersState) (g : GenInput)
    (hne : g.event_gen.isEmpty = false) (accE accW : PhaseAcc)
    (hE : accE = runTasks (st.orders.filter (fun o => o.scope == "EVENT"))
      { orders := st.orders, next_oid := st.next_oid
        created := [], updated := [], skipped := [] } (eventTasks g))
    (hW : accW = runTasks (st.orders.filter (fun o => o.scope == "WEEKLY"))
      { orders := accE.orders, next_oid := accE.next_oid
        created := [], updated := [], skipped := [] } (weeklyTasks g)) :
    persist_generation st g =
      { orders := accW.orders.filter (fun o =>
          !(staleOrder (g.event_gen.map (fun e => e.event_id))
            (g.weekly_gen.map (fun w => w.1)) o))
        next_oid := accW.next_oid
        created_event_ids := accE.created
        updated_event_ids := accE.updated
        skipped_event_ids := accE.skipped
        created_weekly_ids := accW.created
        updated_weekly_ids := accW.updated
        skipped_weekly_ids := accW.skipped } := by
  subst hE
  subst hW
  unfold persist_generation
  try dsimp only
  rw [if_neg (by rw [hne]; exact Bool.false_ne_true)]
  rw [eventPhase_eq_runTasks, weeklyPhase_eq_runTasks]

theorem persist_generation_WF (st : OrdersState) (g : GenInput)
    (hwf : OrdersWF st) :
    OrdersWF { orders := (persist_generation st g).orders
               next_oid := (persist_generation st g).next_oid } := by
  obtain ⟨hnd, hbound⟩ := hwf
  cases he : g.event_gen.isEmpty with
  | true =>
    rw [persist_generation_empty st g he]
    constructor
    · exact hnd.sublist (List.Sublist.map _ (List.filter_sublist _))
    · intro o ho
      exact hbound o (List.mem_filter.mp ho).1
  | false =>
    rw [persist_generation_eq st g he _ _ rfl rfl]
    try dsimp only
    have hmkE : ∀ t ∈ eventTasks g, ∀ n l, (t.mkNew n l).oid = n := by
      intro t ht n l
      obtain ⟨b, _, hbe⟩ := List.mem_map.mp ht
      rw [← hbe]
      rfl
    have hmkW : ∀ t ∈ weeklyTasks g, ∀ n l, (t.mkNew n l).oid = n := by
      intro t ht n l
      obtain ⟨b, _, hbe⟩ := List.mem_map.mp ht
      rw [← hbe]
      rfl
    have hE : AccInv (runTasks (st.orders.filter (fun o => o.scope == "EVENT"))
        { orders := st.orders, next_oid := st.next_oid
          created := [], updated := [], skipped := [] } (eventTasks g)) := by
      refine runTasks_AccInv _ (eventTasks g) _ hmkE ?_
      exact ⟨hnd, hbound⟩
    have hW : AccInv (runTasks (st.orders.filter (fun o => o.scope == "WEEKLY"))
        { orders := (runTasks (st.orders.filter (fun o => o.scope == "EVENT"))
            { orders := st.orders, next_oid := st.next_oid
              created := [], updated := [], skipped := [] } (eventTasks g)).orders
          next_oid := (runTasks (st.orders.filter (fun o => o.scope == "EVENT"))
            { orders := st.orders, next_oid := st.next_oid
              created := [], updated := [], skipped := [] } (eventTasks g)).next_oid
          created := [], updated := [], skipped := [] } (weeklyTasks g)) := by
      refine runTasks_AccInv _ (weeklyTasks g) _ hmkW ?_
      exact ⟨hE.1, hE.2⟩
    constructor
    · exact hW.1.sublist (List.Sublist.map _ (List.filter_sublist _))
    · intro o ho
      exact hW.2 o (List.mem_filter.mp ho).1

theorem persist_no_create (st : OrdersState) (g : GenInput)
    (hE : ∀ t ∈ eventTriples g,
      (lookupLast (st.orders.filter (fun o => o.scope == "EVENT"))
        (eventKeyMatch t.1 t.2.1)).isSome = true)
    (hW : ∀ w ∈ g.weekly_gen,
      (lookupLast (st.orders.filter (fun o => o.scope == "WEEKLY"))
        (weeklyKeyMatch w.1)).isSome = true) :
    (persist_generation st g).created_event_ids = []
    ∧ (persist_generation st g).created_weekly_ids = [] := by
  cases he : g.event_gen.isEmpty with
  | true =>
    rw [persist_generation_empty st g he]
    exact ⟨rfl, rfl⟩
  | false =>
    rw [persist_generation_eq st g he _ _ rfl rfl]
    try dsimp only
    constructor
    · refine runTasks_created_nil _ (eventTasks g) _ ?_
      intro t ht
      obtain ⟨b, hbm, hbe⟩ := List.mem_map.mp ht
      rw [← hbe]
      exact hE b hbm
    · refine runTasks_created_nil _ (weeklyTasks g) _ ?_
      intro t ht
      obtain ⟨b, hbm, hbe⟩ := List.mem_map.mp ht
      rw [← hbe]
      exact hW b hbm

/-- After one run, every event `(event, supplier)` key the generation
upserts has a matching EVENT order in the resulting table. -/
theorem persist_key_event (st : OrdersState) (g : GenInput)
    (hwf : OrdersWF st) (hkeys : (eventKeys g).Nodup)
    (t0 : Nat × Option Nat × List OrderItemRow) (ht0 : t0 ∈ eventTriples g) :
    ∃ o, o ∈ (persist_generation st g).orders
      ∧ eventKeyMatch t0.1 t0.2.1 o = true := by
  have hne : g.event_gen.isEmpty = false := by
    cases hgl : g.event_gen with
    | nil =>
      exfalso
      unfold eventTriples at ht0
      rw [hgl] at ht0
      simp at ht0
    | cons e rest => rfl
  rw [persist_generation_eq st g hne _ _ rfl rfl]
  try dsimp only
  obtain ⟨hnd, hbound⟩ := hwf
  obtain ⟨l1, l2, hsplit⟩ := List.append_of_mem ht0
  have htasks : eventTasks g = l1.map evTask ++ evTask t0 :: l2.map evTask := by
    rw [eventTasks, hsplit, List.map_append, List.map_cons]
  have hkndsplit : ((l1 ++ t0 :: l2).map (fun t => (t.1, t.2.1))).Nodup := by
    rw [← hsplit]
    rw [eventKeys_eq_map] at hkeys
    exact hkeys
  cases hlk : lookupLast (st.orders.filter (fun o => o.scope == "EVENT"))
      (eventKeyMatch t0.1 t0.2.1) with
  | some o1 =>
    obtain ⟨ho1E, hm1⟩ := lookupLast_mem _ _ _ hlk
    have ho1st : o1 ∈ st.orders := (List.mem_filter.mp ho1E).1
    have hsc1 : o1.scope = "EVENT" := (eventKeyMatch_props t0.1 t0.2.1 o1 hm1).1
    have hhits := event_hit_hyp (st.orders.filter (fun o => o.scope == "EVENT"))
      st.orders (fun x hx => (List.mem_filter.mp hx).1) hnd t0 l1 l2 o1 hm1 ho1E
      hkndsplit
    have hhit := runTasks_hit (st.orders.filter (fun o => o.scope == "EVENT")) o1
      (l1.map evTask) (evTask t0) (l2.map evTask)
      { orders := st.orders, next_oid := st.next_oid
        created := [], updated := [], skipped := [] } hlk ho1st hhits
    rw [← htasks] at hhit
    have hwframe := no_hit_of_scope (st.orders.filter (fun o => o.scope == "WEEKLY"))
      st.orders hnd (fun x hx => (List.mem_filter.mp hx).1) "WEEKLY"
      (fun x hx => (mem_filter_scope _ _ x hx).2) o1 ho1st
      (by rw [hsc1]; decide) (weeklyTasks g)
    have hstale := staleOrder_event_false (g.event_gen.map (fun e => e.event_id))
      (g.weekly_gen.map (fun w => w.1))
    cases hd : isDraft o1 with
    | true =>
      obtain ⟨_, hmem⟩ := hhit.1 hd
      refine ⟨{ o1 with items := t0.2.2 }, ?_, hm1⟩
      apply List.mem_filter.mpr
      constructor
      · exact runTasks_frame _ _ (weeklyTasks g) _ hmem hwframe
      · have hst := hstale ({ o1 with items := t0.2.2 }) t0.1 t0.2.1 hm1
          (eventTriples_window g t0 ht0)
        try dsimp only
        rw [hst]
        rfl
    | false =>
      obtain ⟨_, hmem⟩ := hhit.2 hd
      refine ⟨o1, ?_, hm1⟩
      apply List.mem_filter.mpr
      constructor
      · exact runTasks_frame _ _ (weeklyTasks g) _ hmem hwframe
      · have hst := hstale o1 t0.1 t0.2.1 hm1 (eventTriples_window g t0 ht0)
        try dsimp only
        rw [hst]
        rfl
  | none =>
    have hexb : ∀ x ∈ st.orders.filter (fun o => o.scope == "EVENT"),
        x.oid < st.next_oid :=
      fun x hx => hbound x (List.mem_filter.mp hx).1
    have hc := runTasks_create (st.orders.filter (fun o => o.scope == "EVENT"))
      st.next_oid hexb (l1.map evTask) (evTask t0) (l2.map evTask)
      { orders := st.orders, next_oid := st.next_oid
        created := [], updated := [], skipped := [] } (fun n => rfl)
      (Nat.le_refl _) hlk
    rw [← htasks] at hc
    obtain ⟨n, hbn, hmem⟩ := hc
    refine ⟨mkEventOrder t0.1 t0.2.1 n t0.2.2, ?_, mkEventOrder_match _ _ _ _⟩
    apply List.mem_filter.mpr
    constructor
    · refine runTasks_frame _ _ (weeklyTasks g) _ hmem ?_
      exact no_hit_of_bound (st.orders.filter (fun o => o.scope == "WEEKLY"))
        st.next_oid (fun x hx => hbound x (List.mem_filter.mp hx).1)
        (mkEventOrder t0.1 t0.2.1 n t0.2.2) hbn (weeklyTasks g)
    · have hst := staleOrder_event_false (g.event_gen.map (fun e => e.event_id))
        (g.weekly_gen.map (fun w => w.1)) (mkEventOrder t0.1 t0.2.1 n t0.2.2)
        t0.1 t0.2.1 (mkEventOrder_match _ _ _ _) (eventTriples_window g t0 ht0)
      try dsimp only
      rw [hst]
      rfl

/-- After one run with a nonempty window, every weekly supplier key the
generation upserts has a matching WEEKLY order in the resulting table. -/
theorem persist_key_weekly (st : OrdersState) (g : GenInput)
    (hwf : OrdersWF st) (hwknd : (g.weekly_gen.map (fun w => w.1)).Nodup)
    (hne : g.event_gen.isEmpty = false)
    (w0 : Option Nat × List OrderItemRow) (hw0 : w0 ∈ g.weekly_gen) :
    ∃ o, o ∈ (persist_generation st g).orders
      ∧ weeklyKeyMatch w0.1 o = true := by
  rw [persist_generation_eq st g hne _ _ rfl rfl]
  try dsimp only
  obtain ⟨hnd, hbound⟩ := hwf
  obtain ⟨l1, l2, hsplit⟩ := List.append_of_mem hw0
  have htasks : weeklyTasks g = l1.map wkTask ++ wkTask w0 :: l2.map wkTask := by
    rw [weeklyTasks, hsplit, List.map_append, List.map_cons]
  have hkndsplit : ((l1 ++ w0 :: l2).map (fun w => w.1)).Nodup := by
    rw [← hsplit]
    exact hwknd
  have hsid : w0.1 ∈ g.weekly_gen.map (fun w => w.1) :=
    List.mem_map.mpr ⟨w0, hw0, rfl⟩
  cases hlk : lookupLast (st.orders.filter (fun o => o.scope == "WEEKLY"))
      (weeklyKeyMatch w0.1) with
  | some o1 =>
    obtain ⟨ho1W, hm1⟩ := lookupLast_mem _ _ _ hlk
    have ho1st : o1 ∈ st.orders := (List.mem_filter.mp ho1W).1
    have hsc1 : o1.scope = "WEEKLY" := (weeklyKeyMatch_props w0.1 o1 hm1).1
    have ho1acc : o1 ∈ (runTasks (st.orders.filter (fun o => o.scope == "EVENT"))
        { orders := st.orders, next_oid := st.next_oid
          created := [], updated := [], skipped := [] } (eventTasks g)).orders := by
      refine runTasks_frame _ _ (eventTasks g) _ ho1st ?_
      exact no_hit_of_scope (st.orders.filter (fun o => o.scope == "EVENT"))
        st.orders hnd (fun x hx => (List.mem_filter.mp hx).1) "EVENT"
        (fun x hx => (mem_filter_scope _ _ x hx).2) o1 ho1st
        (by rw [hsc1]; decide) (eventTasks g)
    have hhits := weekly_hit_hyp (st.orders.filter (fun o => o.scope == "WEEKLY"))
      st.orders (fun x hx => (List.mem_filter.mp hx).1) hnd w0 l1 l2 o1 hm1 ho1W
      hkndsplit
    have hhit := runTasks_hit (st.orders.filter (fun o => o.scope == "WEEKLY")) o1
      (l1.map wkTask) (wkTask w0) (l2.map wkTask)
      { orders := (runTasks (st.orders.filter (fun o => o.scope == "EVENT"))
          { orders := st.orders, next_oid := st.next_oid
            created := [], updated := [], skipped := [] } (eventTasks g)).orders
        next_oid := (runTasks (st.orders.filter (fun o => o.scope == "EVENT"))
          { orders := st.orders, next_oid := st.next_oid
            created := [], updated := [], skipped := [] } (eventTasks g)).next_oid
        created := [], updated := [], skipped := [] } hlk ho1acc hhits
    rw [← htasks] at hhit
    cases hd : isDraft o1 with
    | true =>
      obtain ⟨_, hmem⟩ := hhit.1 hd
      refine ⟨{ o1 with items := w0.2 }, ?_, hm1⟩
      apply List.mem_filter.mpr
      constructor
      · exact hmem
      · have hst := staleOrder_weekly_false (g.event_gen.map (fun e => e.event_id))
          (g.weekly_gen.map (fun w => w.1)) ({ o1 with items := w0.2 }) w0.1 hm1 hsid
        try dsimp only
        rw [hst]
        rfl
    | false =>
      obtain ⟨_, hmem⟩ := hhit.2 hd
      refine ⟨o1, ?_, hm1⟩
      apply List.mem_filter.mpr
      constructor
      · exact hmem
      · have hst := staleOrder_weekly_false (g.event_gen.map (fun e => e.event_id))
          (g.weekly_gen.map (fun w => w.1)) o1 w0.1 hm1 hsid
        try dsimp only
        rw [hst]
        rfl
  | none =>
    have hexb : ∀ x ∈ st.orders.filter (fun o => o.scope == "WEEKLY"),
        x.oid < st.next_oid :=
      fun x hx => hbound x (List.mem_filter.mp hx).1
    have hc := runTasks_create (st.orders.filter (fun o => o.scope == "WEEKLY"))
      st.next_oid hexb (l1.map wkTask) (wkTask w0) (l2.map wkTask)
      { orders := (runTasks (st.orders.filter (fun o => o.scope == "EVENT"))
          { orders := st.orders, next_oid := st.next_oid
            created := [], updated := [], skipped := [] } (eventTasks g)).orders
        next_oid := (runTasks (st.orders.filter (fun o => o.scope == "EVENT"))
          { orders := st.orders, next_oid := st.next_oid
            created := [], updated := [], skipped := [] } (eventTasks g)).next_oid
        created := [], updated := [], skipped := [] } (fun n => rfl)
      (runTasks_next_mono _ (eventTasks g)
        { orders := st.orders, next_oid := st.next_oid
          created := [], updated := [], skipped := [] }) hlk
    rw [← htasks] at hc
    obtain ⟨n, _, hmem⟩ := hc
    refine ⟨mkWeeklyOrder w0.1 n w0.2, ?_, mkWeeklyOrder_match _ _ _⟩
    apply List.mem_filter.mpr
    constructor
    · exact hmem
    · have hst := staleOrder_weekly_false (g.event_gen.map (fun e => e.event_id))
        (g.weekly_gen.map (fun w => w.1)) (mkWeeklyOrder w0.1 n w0.2) w0.1
        (mkWeeklyOrder_match _ _ _) hsid
      try dsimp only
      rw [hst]
      rfl

/-- When an event key's idempotency lookup finds an order, the run
updates it in place if DRAFT and skips it untouched otherwise. -/
theorem persist_key_event_detail (st : OrdersState) (g : GenInput)
    (hwf : OrdersWF st) (hkeys : (eventKeys g).Nodup)
    (t0 : Nat × Option Nat × List OrderItemRow) (ht0 : t0 ∈ eventTriples g)
    (o : Order)
    (hlk : lookupLast (st.orders.filter (fun x => x.scope == "EVENT"))
      (eventKeyMatch t0.1 t0.2.1) = some o) :
    (isDraft o = true →
      o.oid ∈ (persist_generation st g).updated_event_ids
      ∧ { o with items := t0.2.2 } ∈ (persist_generation st g).orders)
    ∧ (isDraft o = false →
      o.oid ∈ (persist_generation st g).skipped_event_ids
      ∧ o ∈ (persist_generation st g).orders) := by
  have hne : g.event_gen.isEmpty = false := by
    cases hgl : g.event_gen with
    | nil =>
      exfalso
      unfold eventTriples at ht0
      rw [hgl] at ht0
      simp at ht0
    | cons e rest => rfl
  rw [persist_generation_eq st g hne _ _ rfl rfl]
  try dsimp only
  obtain ⟨hnd, hbound⟩ := hwf
  obtain ⟨l1, l2, hsplit⟩ := List.append_of_mem ht0
  have htasks : eventTasks g = l1.map evTask ++ evTask t0 :: l2.map evTask := by
    rw [eventTasks, hsplit, List.map_append, List.map_cons]
  have hkndsplit : ((l1 ++ t0 :: l2).map (fun t => (t.1, t.2.1))).Nodup := by
    rw [← hsplit]
    rw [eventKeys_eq_map] at hkeys
    exact hkeys
  obtain ⟨hoE, hm1⟩ := lookupLast_mem _ _ _ hlk
  have host : o ∈ st.orders := (List.mem_filter.mp hoE).1
  have hsc1 : o.scope = "EVENT" := (eventKeyMatch_props t0.1 t0.2.1 o hm1).1
  have hhits := event_hit_hyp (st.orders.filter (fun x => x.scope == "EVENT"))
    st.orders (fun x hx => (List.mem_filter.mp hx).1) hnd t0 l1 l2 o hm1 hoE
    hkndsplit
  have hhit := runTasks_hit (st.orders.filter (fun x => x.scope == "EVENT")) o
    (l1.map evTask) (evTask t0) (l2.map evTask)
    { orders := st.orders, next_oid := st.next_oid
      created := [], updated := [], skipped := [] } hlk host hhits
  rw [← htasks] at hhit
  have hwframe := no_hit_of_scope (st.orders.filter (fun o => o.scope == "WEEKLY"))
    st.orders hnd (fun x hx => (List.mem_filter.mp hx).1) "WEEKLY"
    (fun x hx => (mem_filter_scope _ _ x hx).2) o host
    (by rw [hsc1]; decide) (weeklyTasks g)
  constructor
  · intro hd
    obtain ⟨hupd, hmem⟩ := hhit.1 hd
    constructor
    · exact hupd
    · apply List.mem_filter.mpr
      constructor
      · exact runTasks_frame _ _ (weeklyTasks g) _ hmem hwframe
      · have hst := staleOrder_event_false (g.event_gen.map (fun e => e.event_id))
          (g.weekly_gen.map (fun w => w.1)) ({ o with items := t0.2.2 })
          t0.1 t0.2.1 hm1 (eventTriples_window g t0 ht0)
        try dsimp only
        rw [hst]
        rfl
  · intro hd
    obtain ⟨hskip, hmem⟩ := hhit.2 hd
    constructor
    · exact hskip
    · apply List.mem_filter.mpr
      constructor
      · exact runTasks_frame _ _ (weeklyTasks g) _ hmem hwframe
      · have hst := staleOrder_event_false (g.event_gen.map (fun e => e.event_id))
          (g.weekly_gen.map (fun w => w.1)) o t0.1 t0.2.1 hm1
          (eventTriples_window g t0 ht0)
        try dsimp only
        rw [hst]
        rfl

/-- When a weekly supplier key's idempotency lookup finds an order, the
run updates it in place if DRAFT and skips it untouched otherwise. -/
theorem persist_key_weekly_detail (st : OrdersState) (g : GenInput)
    (hwf : OrdersWF st) (hwknd : (g.weekly_gen.map (fun w => w.1)).Nodup)
    (hne : g.event_gen.isEmpty = false)
    (w0 : Option Nat × List OrderItemRow) (hw0 : w0 ∈ g.weekly_gen)
    (o : Order)
    (hlk : lookupLast (st.orders.filter (fun x => x.scope == "WEEKLY"))
      (weeklyKeyMatch w0.1) = some o) :
    (isDraft o = true →
      o.oid ∈ (persist_generation st g).updated_weekly_ids
      ∧ { o with items := w0.2 } ∈ (persist_generation st g).orders)
    ∧ (isDraft o = false →
      o.oid ∈ (persist_generation st g).skipped_weekly_ids
      ∧ o ∈ (persist_generation st g).orders) := by
  rw [persist_generation_eq st g hne _ _ rfl rfl]
  try dsimp only
  obtain ⟨hnd, hbound⟩ := hwf
  obtain ⟨l1, l2, hsplit⟩ := List.append_of_mem hw0
  have htasks : weeklyTasks g = l1.map wkTask ++ wkTask w0 :: l2.map wkTask := by
    rw [weeklyTasks, hsplit, List.map_append, List.map_cons]
  have hkndsplit : ((l1 ++ w0 :: l2).map (fun w => w.1)).Nodup := by
    rw [← hsplit]
    exact hwknd
  have hsid : w0.1 ∈ g.weekly_gen.map (fun w => w.1) :=
    List.mem_map.mpr ⟨w0, hw0, rfl⟩
  obtain ⟨hoW, hm1⟩ := lookupLast_mem _ _ _ hlk
  have host : o ∈ st.orders := (List.mem_filter.mp hoW).1
  have hsc1 : o.scope = "WEEKLY" := (weeklyKeyMatch_props w0.1 o hm1).1
  have hoacc : o ∈ (runTasks (st.orders.filter (fun o => o.scope == "EVENT"))
      { orders := st.orders, next_oid := st.next_oid
        created := [], updated := [], skipped := [] } (eventTasks g)).orders := by
    refine runTasks_frame _ _ (eventTasks g) _ host ?_
    exact no_hit_of_scope (st.orders.filter (fun o => o.scope == "EVENT"))
      st.orders hnd (fun x hx => (List.mem_filter.mp hx).1) "EVENT"
      (fun x hx => (mem_filter_scope _ _ x hx).2) o host
      (by rw [hsc1]; decide) (eventTasks g)
  have hhits := weekly_hit_hyp (st.orders.filter (fun x => x.scope == "WEEKLY"))
    st.orders (fun x hx => (List.mem_filter.mp hx).1) hnd w0 l1 l2 o hm1 hoW
    hkndsplit
  have hhit := runTasks_hit (st.orders.filter (fun x => x.scope == "WEEKLY")) o
    (l1.map wkTask) (wkTask w0) (l2.map wkTask)
    { orders := (runTasks (st.orders.filter (fun o => o.scope == "EVENT"))
        { orders := st.orders, next_oid := st.next_oid
          created := [], updated := [], skipped := [] } (eventTasks g)).orders
      next_oid := (runTasks (st.orders.filter (fun o => o.scope == "EVENT"))
        { orders := st.orders, next_oid := st.next_oid
          created := [], updated := [], skipped := [] } (eventTasks g)).next_oid
      created := [], updated := [], skipped := [] } hlk hoacc hhits
  rw [← htasks] at hhit
  constructor
  · intro hd
    obtain ⟨hupd, hmem⟩ := hhit.1 hd
    constructor
    · exact hupd
    · apply List.mem_filter.mpr
      constructor
      · exact hmem
      · have hst := staleOrder_weekly_false (g.event_gen.map (fun e => e.event_id))
          (g.weekly_gen.map (fun w => w.1)) ({ o with items := w0.2 }) w0.1 hm1 hsid
        try dsimp only
        rw [hst]
        rfl
  · intro hd
    obtain ⟨hskip, hmem⟩ := hhit.2 hd
    constructor
    · exact hskip
    · apply List.mem_filter.mpr
      constructor
      · exact hmem
      · have hst := staleOrder_weekly_false (g.event_gen.map (fun e => e.event_id))
          (g.weekly_gen.map (fun w => w.1)) o w0.1 hm1 hsid
        try dsimp only
        rw [hst]
        rfl

/-- C7: running the weekly-by-event persistence twice in a row with the
same generation input creates zero new Order rows the second time —
every would-be `(event, supplier)` EVENT order and per-supplier WEEKLY
order is found by the second run's idempotency lookup; a DRAFT one is
updated in place (same id, its item rows replaced by the computed
lines), and a non-DRAFT one is reported as skipped and kept entirely
untouched. -/
theorem claim_C7_generation_idempotence (st : OrdersState) (g : GenInput)
    (r1 r2 : GenResult) (hwf : OrdersWF st) (hg : GenWF g)
    (hr1 : r1 = persist_generation st g)
    (hr2 : r2 = persist_generation
      { orders := r1.orders, next_oid := r1.next_oid } g) :
    r2.created_event_ids = [] ∧ r2.created_weekly_ids = []
    ∧ (∀ t ∈ eventTriples g, ∃ o,
        lookupLast (r1.orders.filter (fun x => x.scope == "EVENT"))
          (eventKeyMatch t.1 t.2.1) = some o
        ∧ (isDraft o = true → o.oid ∈ r2.updated_event_ids
            ∧ { o with items := t.2.2 } ∈ r2.orders)
        ∧ (isDraft o = false → o.oid ∈ r2.skipped_event_ids ∧ o ∈ r2.orders))
    ∧ (∀ w ∈ g.weekly_gen, ∃ o,
        lookupLast (r1.orders.filter (fun x => x.scope == "WEEKLY"))
          (weeklyKeyMatch w.1) = some o
        ∧ (isDraft o = true → o.oid ∈ r2.updated_weekly_ids
            ∧ { o with items := w.2 } ∈ r2.orders)
        ∧ (isDraft o = false → o.oid ∈ r2.skipped_weekly_ids ∧ o ∈ r2.orders)) := by
  subst hr1
  subst hr2
  obtain ⟨hkeys, hwknd, hempty⟩ := hg
  have hwf1 : OrdersWF (OrdersState.mk (persist_generation st g).orders
      (persist_generation st g).next_oid) :=
    persist_generation_WF st g hwf
  have hE2 : ∀ t ∈ eventTriples g,
      (lookupLast ((persist_generation st g).orders.filter
        (fun x => x.scope == "EVENT")) (eventKeyMatch t.1 t.2.1)).isSome = true := by
    intro t ht
    obtain ⟨o, homem, hom⟩ := persist_key_event st g hwf hkeys t ht
    have hsc := (eventKeyMatch_props t.1 t.2.1 o hom).1
    exact lookupLast_isSome_of_mem _ _ o (mem_filter_scope_of _ _ o homem hsc) hom
  have hW2 : ∀ w ∈ g.weekly_gen,
      (lookupLast ((persist_generation st g).orders.filter
        (fun x => x.scope == "WEEKLY")) (weeklyKeyMatch w.1)).isSome = true := by
    intro w hw
    have hne : g.event_gen.isEmpty = false := by
      cases hgl : g.event_gen with
      | nil =>
        exfalso
        rw [hempty hgl] at hw
        cases hw
      | cons e rest => rfl
    obtain ⟨o, homem, hom⟩ := persist_key_weekly st g hwf hwknd hne w hw
    have hsc := (weeklyKeyMatch_props w.1 o hom).1
    exact lookupLast_isSome_of_mem _ _ o (mem_filter_scope_of _ _ o homem hsc) hom
  have hnc := persist_no_create (OrdersState.mk (persist_generation st g).orders
    (persist_generation st g).next_oid) g hE2 hW2
  refine ⟨hnc.1, hnc.2, ?_, ?_⟩
  · intro t ht
    obtain ⟨o, ho⟩ := Option.isSome_iff_exists.mp (hE2 t ht)
    have hdet := persist_key_event_detail
      (OrdersState.mk (persist_generation st g).orders
        (persist_generation st g).next_oid) g hwf1 hkeys t ht o ho
    exact ⟨o, ho, hdet.1, hdet.2⟩
  · intro w hw
    have hne : g.event_gen.isEmpty = false := by
      cases hgl : g.event_gen with
      | nil =>
        exfalso
        rw [hempty hgl] at hw
        cases hw
      | cons e rest => rfl
    obtain ⟨o, ho⟩ := Option.isSome_iff_exists.mp (hW2 w hw)
    have hdet := persist_key_weekly_detail
      (OrdersState.mk (persist_generation st g).orders
        (persist_generation st g).next_oid) g hwf1 hwknd hne w hw o ho
    exact ⟨o, ho, hdet.1, hdet.2⟩

/-- C7 witness: one event (id 1, supplier 4) and one weekly group over
an initially empty orders table — the second run creates nothing, finds
the first run's DRAFT orders and updates them in place. -/
theorem claim_C7_witness :
    (OrdersWF stC7 ∧ GenWF gC7)
    ∧ r2C7.created_event_ids = [] ∧ r2C7.created_weekly_ids = []
    ∧ (∃ o, lookupLast (r1C7.orders.filter (fun x => x.scope == "EVENT"))
          (eventKeyMatch 1 (some 4)) = some o
        ∧ (isDraft o = true → o.oid ∈ r2C7.updated_event_ids
            ∧ { o with items := [lineA] } ∈ r2C7.orders)
        ∧ (isDraft o = false → o.oid ∈ r2C7.skipped_event_ids ∧ o ∈ r2C7.orders))
    ∧ (∃ o, lookupLast (r1C7.orders.filter (fun x => x.scope == "WEEKLY"))
          (weeklyKeyMatch (some 4)) = some o
        ∧ (isDraft o = true → o.oid ∈ r2C7.updated_weekly_ids
            ∧ { o with items := [lineA] } ∈ r2C7.orders)
        ∧ (isDraft o = false → o.oid ∈ r2C7.skipped_weekly_ids ∧ o ∈ r2C7.orders)) := by
  have h := claim_C7_generation_idempotence stC7 gC7 r1C7 r2C7
    ⟨by decide, by decide⟩ ⟨by decide, by decide, by decide⟩ rfl rfl
  exact ⟨⟨⟨by decide, by decide⟩, by decide, by decide, by decide⟩, h.1, h.2.1,
    h.2.2.1 (1, some 4, [lineA]) (by decide),
    h.2.2.2 (some 4, [lineA]) (by decide)⟩

end CocktailInv
